import Mathlib

/-!
# pytrace: the capture path of the tracer extension

A shallow embedding of `src/ext/serial.c` and `src/ext/trace.c`.

Conventions of the embedding.

* A `char*` is the list of bytes of the buffer it points to, without the
  terminating NUL every such buffer ends with.  A buffer may hold a NUL
  earlier on (a Python string may), so `strlen` counts up to the first NUL.
* `serial.c` is read with `IS_PY3K` undefined, the only configuration
  `trace.c` builds in (`PyString_AsString`, `Py_InitModule3`): there
  `PYSTR_TO_CHAR` is `PyString_AsString` and `CLEAR_REFS` does nothing.
  The namespace `Py3` holds `serial.c` read with `IS_PY3K` defined, where
  `PYSTR_TO_CHAR` counts the converted strings in `refs_count` and asserts
  a bound on it.
* The two thread-specific slots (`depth_key`, `no_trace_context_key`) hold a
  pointer, given by the `long` it converts to, `NULL` being 0.  An `int` has
  32 bits and a `long` 64; a sum or a conversion that leaves the range of
  its type wraps around (`toInt`, `toLong`), as two's complement does.
* The constants of `defs.h` (`MAX_ARGS`, `MAX_STR_SIZE`, `DONT_TRACE_NAME`)
  are a parameter, `Defs`.
* `record->time` and `record->tid` come from the clock and from
  `pthread_self`; the embedding leaves these two fields out of a record.
* The state is that of one traced thread together with the process-wide
  preallocated argument slots and the ring.
* Storage.  The one release `serial.c` does itself in the build without
  `IS_PY3K` is the `Py_DECREF` of the repr string in `pyobj_to_cstr`; a string
  object carries its reference count, and what is computed through a pointer
  into a released string is marked `released`: the sources do not fix what
  such storage holds.  The storage of string literals and of the
  interpreter's code, type and name objects is taken to outlive the record
  that points to it.
-/

namespace Pytrace

/-! ## C strings -/

/-- The bytes of a buffer a `char*` points to, its final terminator left out. -/
abbrev CStr := List Char

/-- The NUL byte. -/
def NUL : Char := Char.ofNat 0

/-- Embeds `strlen`: the number of bytes before the first NUL. -/
def strlen (s : CStr) : Nat :=
  (s.takeWhile (fun c => c != NUL)).length

/-- The C string a buffer holds: its bytes before the first NUL. -/
def cstr (s : CStr) : List Char :=
  s.takeWhile (fun c => c != NUL)

/-- Embeds `strncmp(a, b, n)`: compares at most `n` bytes and stops after a NUL;
the result is the difference of the first two bytes that differ, 0 when
there are none. -/
def strncmp : CStr → CStr → Nat → Int
  | _, _, 0 => 0
  | a, b, n + 1 =>
    let ca := a.headD NUL
    let cb := b.headD NUL
    if ca != cb then (ca.toNat : Int) - (cb.toNat : Int)
    else if ca == NUL then 0
    else strncmp a.tail b.tail n

/-! ## Constants -/

/-- The constants `serial.c` takes from `defs.h`. -/
structure Defs where
  MAX_ARGS : Nat
  MAX_STR_SIZE : Nat
  DONT_TRACE_NAME : CStr

/-- Embeds `#define DEPTH_MAGIC 10000` -/
def DEPTH_MAGIC : Int := 10000

/-- The largest `int`. -/
def INT_MAX : Int := 2147483647

/-- The smallest `int`. -/
def INT_MIN : Int := -2147483648

/-- The `int` an integer becomes when a sum in `int`, or a conversion to
`int`, yields it: the value modulo 2^32 in the range of `int`. -/
def toInt (x : Int) : Int :=
  (x + 2147483648) % 4294967296 - 2147483648

/-- The `long` an integer becomes when a sum in `long` yields it: the value
modulo 2^64 in the range of `long`. -/
def toLong (x : Int) : Int :=
  (x + 9223372036854775808) % 18446744073709551616 - 9223372036854775808

/-- Embeds `CO_VARARGS` of CPython's `code.h`, the flag 0x0004. -/
def CO_VARARGS : Nat := 4

/-- Embeds `CO_VARKEYWORDS` of CPython's `code.h`, the flag 0x0008. -/
def CO_VARKEYWORDS : Nat := 8

/-! ## The interpreter's objects, as far as the tracer reads them -/

/-- A type object: the tracer reads `tp_name`. -/
structure PyTypeObject where
  tp_name : CStr
  deriving DecidableEq, Repr

/-- A string object, as far as its storage matters: the number of references
to it and its buffer. -/
structure PyStringObject where
  ob_refcnt : Nat
  ob_sval : CStr
  deriving DecidableEq, Repr

/-- A value: the tracer reads its type and asks for its repr.  `repr` is what
`PyObject_Repr` gives: `none` when it fails (returns `NULL`), else a new
reference to a string object, `ob_refcnt` counting that reference. -/
structure PyObject where
  ob_type : PyTypeObject
  repr : Option PyStringObject
  deriving DecidableEq, Repr

/-- Embeds `PyObject_Repr(obj)`: a new reference to the repr string, or `none`
(`NULL`) on failure. -/
def PyObject_Repr (obj : PyObject) : Option PyStringObject := obj.repr

/-- Embeds `Py_DECREF` on a string object: one reference fewer; the object is
released, its buffer with it, when none is left. -/
def Py_DECREF (o : PyStringObject) : PyStringObject :=
  { o with ob_refcnt := o.ob_refcnt - 1 }

/-- Embeds `Py_None`: its repr is a new string with the one reference. -/
def Py_None : PyObject :=
  { ob_type := { tp_name := "NoneType".toList },
    repr := some { ob_refcnt := 1, ob_sval := "None".toList } }

/-- A code object.  String objects (`co_filename`, `co_name`, the entries of
`co_varnames`) are given by their buffers. -/
structure PyCodeObject where
  co_argcount : Nat
  co_flags : Nat
  co_varnames : List CStr
  co_filename : CStr
  co_name : CStr
  co_firstlineno : Int
  deriving DecidableEq, Repr

/-- A frame.  `f_locals` is `none` for `NULL`, else the dictionary as an
association list; `f_localsplus` is the array of fast locals, an entry being
`none` for `NULL`. -/
structure PyFrameObject where
  f_code : PyCodeObject
  f_locals : Option (List (CStr × PyObject))
  f_localsplus : List (Option PyObject)
  deriving DecidableEq, Repr

/-- The tuple `exc_info` handed to the trace function on an exception: item 0
is the exception type, item 1 the exception value. -/
structure ExcInfo where
  item0 : PyTypeObject
  item1 : PyObject
  deriving DecidableEq, Repr

/-- Embeds `PYSTR_TO_CHAR(obj)`, here `PyString_AsString`: the string's buffer. -/
def PYSTR_TO_CHAR (obj : CStr) : CStr := obj

/-- Embeds `PyString_AsString(obj)`: the string's buffer. -/
def PyString_AsString (obj : CStr) : CStr := obj

/-- Embeds `PyTuple_GetItem(co_varnames, i)`.  On a frame of the interpreter `i` is
within the tuple; outside it the embedding reads an empty name. -/
def PyTuple_GetItem (t : List CStr) (i : Nat) : CStr := t.getD i []

/-- Embeds `PyDict_GetItem(dict, key)`: the value, or `none` (`NULL`) when the key
is absent. -/
def PyDict_GetItem (dict : List (CStr × PyObject)) (key : CStr) : Option PyObject :=
  dict.lookup key

/-- The C string `"STR FAILED"`. -/
def STR_FAILED : CStr := "STR FAILED".toList

/-- The C string of two single quotes. -/
def EMPTY_REPR : CStr := "''".toList

/-- What a `char*` computation yields.  `live buf`: a pointer to storage that
holds `buf`.  `released was`: the outcome of code that went on with a pointer
into the buffer of a string object after the object was released, `was`
being the bytes the buffer held before; neither what a read through such a
pointer finds nor what follows from it is fixed by the sources. -/
inductive CharPtr
  | live (buf : CStr)
  | released (was : CStr)
  deriving DecidableEq, Repr

/-- Embeds `pyobj_to_cstr` (serial.c 49-63).  `result` points into the buffer
of `string`; the `Py_DECREF` of line 58 comes before `result[0]` is read and
`result` returned, so when it drops the last reference lines 59-62 run on
released storage. -/
def pyobj_to_cstr (obj : PyObject) : CharPtr :=
  match PyObject_Repr obj with
  | none => .live STR_FAILED
  | some string =>
    let result := PYSTR_TO_CHAR string.ob_sval
    let string := Py_DECREF string
    if string.ob_refcnt == 0 then .released result
    else if result.headD NUL == NUL then .live EMPTY_REPR
    else .live result

/-! ## Records -/

/-- Embeds `ProtobufCBinaryData`: a length and a pointer. -/
structure ProtobufCBinaryData where
  len : Nat
  data : CStr
  deriving DecidableEq, Repr

/-- The bytes a binary field stands for: the first `len` bytes at `data`. -/
def ProtobufCBinaryData.bytes (b : ProtobufCBinaryData) : List Char :=
  b.data.take b.len

/-- Embeds `set_string` (serial.c 83-86). -/
def set_string (d : Defs) (str : CStr) : ProtobufCBinaryData :=
  { data := str, len := min (strlen str) d.MAX_STR_SIZE }

/-- The `value` field of an argument, the one field set from the result of
`pyobj_to_cstr`.  `live b`: the field `b`, its `data` pointing to live
storage.  `released was`: `set_string` ran on a pointer into released
storage that held `was`, so its `strlen` read that storage and `data`
points into it. -/
inductive ValueField
  | live (b : ProtobufCBinaryData)
  | released (was : CStr)
  deriving DecidableEq, Repr

/-- Embeds `set_string` (serial.c 83-86) on the result of `pyobj_to_cstr`. -/
def set_string_value (d : Defs) : CharPtr → ValueField
  | .live buf => .live (set_string d buf)
  | .released was => .released was

/-- The message `Argument`. -/
structure Argument where
  name : ProtobufCBinaryData
  type : ProtobufCBinaryData
  value : ValueField
  deriving DecidableEq, Repr

/-- Embeds `argument__init`: every field empty. -/
def argument__init : Argument :=
  { name := ⟨0, []⟩, type := ⟨0, []⟩, value := .live ⟨0, []⟩ }

/-- Embeds `Record__RecordType`. -/
inductive Record__RecordType
  | RECORD__RECORD_TYPE__CALL
  | RECORD__RECORD_TYPE__RETURN
  | RECORD__RECORD_TYPE__EXCEPTION
  deriving DecidableEq, Repr

open Record__RecordType

/-- The message `Record`, as `handle_trace` fills it; `arguments` is the
array of slots `record->arguments` points to. -/
structure Record where
  type : Record__RecordType
  n_arguments : Nat
  depth : Int
  module : ProtobufCBinaryData
  function : ProtobufCBinaryData
  lineno : Int
  arguments : List Argument
  deriving DecidableEq, Repr

/-- The encoded `value` field of an argument.  `bytes b`: the bytes `b`, read
from live storage.  `released was`: `len` bytes read through a pointer into
released storage that held `was`, `len` itself computed from that storage;
the sources do not fix them. -/
inductive PackedValue
  | bytes (b : List Char)
  | released (was : List Char)
  deriving DecidableEq, Repr

/-- What packing reads for a `value` field. -/
def ValueField.pack : ValueField → PackedValue
  | .live b => .bytes b.bytes
  | .released was => .released was

/-- One encoded argument: the bytes of its name and type, and its value. -/
structure PackedArgument where
  name : List Char
  type : List Char
  value : PackedValue
  deriving DecidableEq, Repr

/-- One encoded record. -/
structure PackedRecord where
  type : Record__RecordType
  n_arguments : Nat
  depth : Int
  module : List Char
  function : List Char
  lineno : Int
  arguments : List PackedArgument
  deriving DecidableEq, Repr

/-- Modelled from the spec: `record__pack` is generated code that is not in
the sources.  The fields are written in the fixed schema (kind, n_arguments,
depth, module, function, lineno, arguments[]); a string field is its first
`len` bytes, and the repeated field holds slots `0 .. n_arguments - 1`. -/
def record__pack (r : Record) : PackedRecord :=
  { type := r.type
    n_arguments := r.n_arguments
    depth := r.depth
    module := r.module.bytes
    function := r.function.bytes
    lineno := r.lineno
    arguments := (r.arguments.take r.n_arguments).map
      (fun a => { name := a.name.bytes, type := a.type.bytes, value := a.value.pack }) }

/-- Modelled from the spec: `ring_write` lives in the ring's source file,
which is not in the sources.  A write appends one record; the ring is the
list of the records written, oldest first. -/
def ring_write (ring : List PackedRecord) (r : PackedRecord) : List PackedRecord :=
  ring ++ [r]

/-! ## State -/

/-- What the handlers read and write: the two thread-specific slots, the
preallocated argument slots, and the records written so far. -/
structure State where
  depth_key : Int
  no_trace_context_key : Int
  arguments : List Argument
  ring : List PackedRecord
  deriving DecidableEq, Repr

/-- The state `init_serialize` leaves (serial.c 65-81): both slots `NULL`,
`MAX_ARGS` initialised argument slots, nothing written. -/
def init_serialize (d : Defs) : State :=
  { depth_key := 0
    no_trace_context_key := 0
    arguments := List.replicate d.MAX_ARGS argument__init
    ring := [] }

/-- Embeds `get_depth` (serial.c 88-91): the slot converted to `int`. -/
def get_depth (s : State) : Int := toInt s.depth_key

/-- Embeds `increment_depth` (serial.c 93-95): the sum is one of `int`. -/
def increment_depth (s : State) : State :=
  { s with depth_key := toInt (get_depth s + 1) }

/-- Embeds `decrement_depth` (serial.c 97-99): the difference is one of
`int`. -/
def decrement_depth (s : State) : State :=
  { s with depth_key := toInt (get_depth s - 1) }

/-- Embeds `enter_no_trace_context` (serial.c 103-105): the sum is one of
`int`. -/
def enter_no_trace_context (s : State) : State :=
  { s with no_trace_context_key := toInt (get_depth s + DEPTH_MAGIC) }

/-- Embeds `exit_no_trace_context` (serial.c 107-109). -/
def exit_no_trace_context (s : State) : State :=
  { s with no_trace_context_key := 0 }

/-- Embeds `in_no_trace_context` (serial.c 111-113). -/
def in_no_trace_context (s : State) : Bool :=
  s.no_trace_context_key != 0

/-- Embeds `should_exit_no_trace_context` (serial.c 115-117): the difference
is one of `long`, and the depth is compared as a `long`. -/
def should_exit_no_trace_context (s : State) : Bool :=
  decide (get_depth s < toLong (s.no_trace_context_key - DEPTH_MAGIC))

/-- Embeds `should_trace_frame` (serial.c 119-123). -/
def should_trace_frame (d : Defs) (frame : PyFrameObject) : Bool :=
  !(0 == strncmp (PYSTR_TO_CHAR frame.f_code.co_name) d.DONT_TRACE_NAME
      (strlen d.DONT_TRACE_NAME))

/-! ## The handlers -/

/-- Embeds `handle_trace` (serial.c 125-140).  The preallocated `record` has every
field but `arguments` overwritten here before it is packed, so it is built
afresh. -/
def handle_trace (d : Defs) (s : State) (frame : PyFrameObject)
    (record_type : Record__RecordType) (n_arguments : Nat) : State :=
  let record : Record :=
    { type := record_type
      n_arguments := n_arguments
      depth := get_depth s
      module := set_string d (PYSTR_TO_CHAR frame.f_code.co_filename)
      function := set_string d (PYSTR_TO_CHAR frame.f_code.co_name)
      lineno := frame.f_code.co_firstlineno
      arguments := s.arguments }
  { s with ring := ring_write s.ring (record__pack record) }

/-- The number of declared parameters `handle_call` computes (serial.c
154-160). -/
def argcount (frame : PyFrameObject) : Nat :=
  let argcount := frame.f_code.co_argcount
  let argcount := if frame.f_code.co_flags &&& CO_VARARGS != 0 then argcount + 1 else argcount
  let argcount := if frame.f_code.co_flags &&& CO_VARKEYWORDS != 0 then argcount + 1 else argcount
  argcount

/-- The value of parameter `i` as the loop of `handle_call` looks it up
(serial.c 163-168); `none` is `NULL`.  The fast locals of a frame of the
interpreter cover every parameter; outside the array the embedding reads
`NULL`. -/
def arg_value (frame : PyFrameObject) (i : Nat) : Option PyObject :=
  let name := PyTuple_GetItem frame.f_code.co_varnames i
  match frame.f_locals with
  | none => (frame.f_localsplus.getD i none)
  | some f_locals => PyDict_GetItem f_locals name

/-- What the three `set_string` calls of the loop of `handle_call` make of
slot `i` for a parameter with a value (serial.c 170-172). -/
def call_argument (d : Defs) (frame : PyFrameObject) (i : Nat) (value : PyObject) :
    Argument :=
  let name := PyTuple_GetItem frame.f_code.co_varnames i
  { name := set_string d (PYSTR_TO_CHAR name)
    type := set_string d value.ob_type.tp_name
    value := set_string_value d (pyobj_to_cstr value) }

/-- One turn of the loop of `handle_call` (serial.c 163-174), on the argument
slots and `count`: a parameter with a value is written to slot `i` and
counted. -/
def handle_call_body (d : Defs) (frame : PyFrameObject)
    (st : List Argument × Nat) (i : Nat) : List Argument × Nat :=
  match arg_value frame i with
  | some value => (st.1.set i (call_argument d frame i value), st.2 + 1)
  | none => st

/-- The loop of `handle_call` (serial.c 162-175): `i` runs from 0 up to
`min(argcount, MAX_ARGS)`. -/
def handle_call_loop (d : Defs) (frame : PyFrameObject)
    (arguments : List Argument) : List Argument × Nat :=
  (List.range (min (argcount frame) d.MAX_ARGS)).foldl
    (handle_call_body d frame) (arguments, 0)

/-- Embeds `handle_call` (serial.c 142-177). -/
def handle_call (d : Defs) (s : State) (frame : PyFrameObject) : State :=
  let s := increment_depth s
  if in_no_trace_context s then s
  else if should_trace_frame d frame == false then enter_no_trace_context s
  else
    let r := handle_call_loop d frame s.arguments
    handle_trace d { s with arguments := r.1 } frame RECORD__RECORD_TYPE__CALL r.2

/-- Embeds `handle_return` (serial.c 179-195); `value` is `none` for `NULL`. -/
def handle_return (d : Defs) (s : State) (frame : PyFrameObject)
    (value : Option PyObject) : State :=
  let s := decrement_depth s
  if in_no_trace_context s then
    if should_exit_no_trace_context s then exit_no_trace_context s else s
  else
    let value := match value with
      | none => Py_None
      | some v => v
    let argument0 : Argument :=
      { name := set_string d "return value".toList
        type := set_string d value.ob_type.tp_name
        value := set_string_value d (pyobj_to_cstr value) }
    let s := { s with arguments := s.arguments.set 0 argument0 }
    handle_trace d s frame RECORD__RECORD_TYPE__RETURN 1

/-- Embeds `handle_exception` (serial.c 197-202). -/
def handle_exception (d : Defs) (s : State) (frame : PyFrameObject)
    (exc_info : ExcInfo) : State :=
  let argument0 : Argument :=
    { name := set_string d "exception".toList
      type := set_string d exc_info.item0.tp_name
      value := set_string_value d (pyobj_to_cstr exc_info.item1) }
  let s := { s with arguments := s.arguments.set 0 argument0 }
  handle_trace d s frame RECORD__RECORD_TYPE__EXCEPTION 1

/-! ## The trace function -/

/-- What the interpreter hands to `trace_func`: the frame, `what` and `arg`.
`other` stands for every `what` the switch has no case for. -/
inductive Event
  | call (frame : PyFrameObject)
  | ret (frame : PyFrameObject) (arg : Option PyObject)
  | exception (frame : PyFrameObject) (arg : ExcInfo)
  | other (frame : PyFrameObject)
  deriving DecidableEq, Repr

/-- The frame of an event. -/
def Event.frame : Event → PyFrameObject
  | .call f => f
  | .ret f _ => f
  | .exception f _ => f
  | .other f => f

/-- The `switch (what)` of `trace_func` (trace.c 16-25). -/
def dispatch (d : Defs) (s : State) : Event → State
  | .call frame => handle_call d s frame
  | .ret frame arg => handle_return d s frame arg
  | .exception frame arg => handle_exception d s frame arg
  | .other _ => s

/-- The loop of `should_trace_module` (trace.c 40-43) entered with index
`i`: its body returns, so only its first turn runs; `none` when the loop is
not entered and control reaches the end of the function, which returns no
value there. -/
def should_trace_module_loop (module : CStr) (filter_modules : List CStr)
    (i : Nat) : Option Bool :=
  if i < filter_modules.length then
    let filter := PyString_AsString (filter_modules.getD i [])
    some (strncmp module filter (strlen filter) == 0)
  else none

/-- Embeds `should_trace_module` (trace.c 31-44); `filter_modules` is `none` for
`NULL`.  The result is `none` where the C function ends without a return
value. -/
def should_trace_module (filter_modules : Option (List CStr))
    (frame : PyFrameObject) : Option Bool :=
  match filter_modules with
  | none => some true
  | some l =>
    let module := PyString_AsString frame.f_code.co_filename
    should_trace_module_loop module l 0

/-- Embeds `trace_func` (trace.c 9-27): `none` when `should_trace_module` gave no
value to test. -/
def trace_func (d : Defs) (filter_modules : Option (List CStr)) (s : State)
    (e : Event) : Option State :=
  match should_trace_module filter_modules e.frame with
  | none => none
  | some false => some s
  | some true => some (dispatch d s e)

/-! ## Event sequences -/

/-- Runs the handlers over a sequence of events, first event first. -/
def run (d : Defs) (s : State) (es : List Event) : State :=
  es.foldl (dispatch d) s

/-- Well-nestedness with `k` calls open: a return closes the innermost open
call, no return comes without one, and none is left open at the end. -/
def wellNestedFrom : Nat → List Event → Bool
  | k, [] => k == 0
  | k, .call _ :: es => wellNestedFrom (k + 1) es
  | 0, .ret _ _ :: _ => false
  | k + 1, .ret _ _ :: es => wellNestedFrom k es
  | k, .exception _ _ :: es => wellNestedFrom k es
  | k, .other _ :: es => wellNestedFrom k es

/-- A well-nested sequence of events. -/
def wellNested (es : List Event) : Bool := wellNestedFrom 0 es

/-- The largest number of calls open at any point of a sequence that starts
with `k` calls open. -/
def maxOpen : Nat → List Event → Nat
  | k, [] => k
  | k, .call _ :: es => max k (maxOpen (k + 1) es)
  | k, .ret _ _ :: es => max k (maxOpen (k - 1) es)
  | k, .exception _ _ :: es => maxOpen k es
  | k, .other _ :: es => maxOpen k es

/-- The event is an exception event. -/
def Event.isException : Event → Bool
  | .exception _ _ => true
  | _ => false

/-! ## The build with `IS_PY3K` defined -/

/-- The state of the build with `IS_PY3K` defined: the state above and the
number `refs_count` of converted strings that wait for `CLEAR_REFS`. -/
structure State3 where
  st : State
  refs_count : Nat
  deriving DecidableEq, Repr

namespace Py3

/-- Embeds `CLEAR_REFS` (serial.c 20-27): the loop drops one reference per
stored string, then `refs_count` is 0. -/
def CLEAR_REFS (s : State3) : State3 :=
  { s with refs_count := 0 }

/-- Embeds `PYSTR_TO_CHAR` (serial.c 29-35).  A string object is given by the
buffer of its UTF-8 bytes.  The converted string is stored at index
`refs_count`, which is then incremented; the result is `none` when the
`ASSERT` that follows fails. -/
def PYSTR_TO_CHAR (d : Defs) (s : State3) (obj : CStr) : Option (CStr × State3) :=
  let s := { s with refs_count := s.refs_count + 1 }
  if s.refs_count < d.MAX_ARGS * 3 then some (obj, s) else none

/-- Embeds `pyobj_to_cstr` (serial.c 49-63) with the `PYSTR_TO_CHAR` above: the
result points into the converted string, which `refs` keeps until
`CLEAR_REFS`. -/
def pyobj_to_cstr (d : Defs) (s : State3) (obj : PyObject) : Option (CStr × State3) :=
  match PyObject_Repr obj with
  | none => some (STR_FAILED, s)
  | some string =>
    match PYSTR_TO_CHAR d s string.ob_sval with
    | none => none
    | some (result, s) =>
      if result.headD NUL == NUL then some (EMPTY_REPR, s) else some (result, s)

/-- Embeds `should_trace_frame` (serial.c 119-123) with the `PYSTR_TO_CHAR`
above. -/
def should_trace_frame (d : Defs) (s : State3) (frame : PyFrameObject) :
    Option (Bool × State3) :=
  match PYSTR_TO_CHAR d s frame.f_code.co_name with
  | none => none
  | some (name, s) =>
    some (!(0 == strncmp name d.DONT_TRACE_NAME (strlen d.DONT_TRACE_NAME)), s)

/-- Embeds `handle_trace` (serial.c 125-140) with the `PYSTR_TO_CHAR` and the
`CLEAR_REFS` above. -/
def handle_trace (d : Defs) (s : State3) (frame : PyFrameObject)
    (record_type : Record__RecordType) (n_arguments : Nat) : Option State3 :=
  match PYSTR_TO_CHAR d s frame.f_code.co_filename with
  | none => none
  | some (module, s) =>
    match PYSTR_TO_CHAR d s frame.f_code.co_name with
    | none => none
    | some (function, s) =>
      let record : Record :=
        { type := record_type
          n_arguments := n_arguments
          depth := get_depth s.st
          module := set_string d module
          function := set_string d function
          lineno := frame.f_code.co_firstlineno
          arguments := s.st.arguments }
      some (CLEAR_REFS
        { s with st := { s.st with ring := ring_write s.st.ring (record__pack record) } })

/-- One turn of the loop of `handle_call` (serial.c 163-174) with the
`PYSTR_TO_CHAR` above, on the state and `count`. -/
def handle_call_body (d : Defs) (frame : PyFrameObject)
    (st : State3 × Nat) (i : Nat) : Option (State3 × Nat) :=
  match arg_value frame i with
  | none => some st
  | some value =>
    match PYSTR_TO_CHAR d st.1 (PyTuple_GetItem frame.f_code.co_varnames i) with
    | none => none
    | some (name, s) =>
      match pyobj_to_cstr d s value with
      | none => none
      | some (repr, s) =>
        let argument : Argument :=
          { name := set_string d name
            type := set_string d value.ob_type.tp_name
            value := .live (set_string d repr) }
        some ({ s with st := { s.st with arguments := s.st.arguments.set i argument } },
          st.2 + 1)

/-- The loop of `handle_call` (serial.c 162-175) over the indices `l`; it
stops with `none` at the first failed `ASSERT`. -/
def handle_call_loop (d : Defs) (frame : PyFrameObject) :
    List Nat → State3 × Nat → Option (State3 × Nat)
  | [], st => some st
  | i :: l, st =>
    match handle_call_body d frame st i with
    | none => none
    | some st => handle_call_loop d frame l st

/-- Embeds `handle_call` (serial.c 142-177) in the build with `IS_PY3K`; `none`
when an `ASSERT` fails. -/
def handle_call (d : Defs) (s : State3) (frame : PyFrameObject) : Option State3 :=
  let s := { s with st := increment_depth s.st }
  if in_no_trace_context s.st then some s
  else
    match should_trace_frame d s frame with
    | none => none
    | some (traced, s) =>
      if traced == false then some { s with st := enter_no_trace_context s.st }
      else
        match handle_call_loop d frame
            (List.range (min (argcount frame) d.MAX_ARGS)) (s, 0) with
        | none => none
        | some (s, count) => handle_trace d s frame RECORD__RECORD_TYPE__CALL count

/-- Embeds `handle_return` (serial.c 179-195) in the build with `IS_PY3K`;
`none` when an `ASSERT` fails. -/
def handle_return (d : Defs) (s : State3) (frame : PyFrameObject)
    (value : Option PyObject) : Option State3 :=
  let s := { s with st := decrement_depth s.st }
  if in_no_trace_context s.st then
    if should_exit_no_trace_context s.st
    then some { s with st := exit_no_trace_context s.st } else some s
  else
    let value := match value with
      | none => Py_None
      | some v => v
    match pyobj_to_cstr d s value with
    | none => none
    | some (repr, s) =>
      let argument0 : Argument :=
        { name := set_string d "return value".toList
          type := set_string d value.ob_type.tp_name
          value := .live (set_string d repr) }
      handle_trace d { s with st := { s.st with arguments := s.st.arguments.set 0 argument0 } }
        frame RECORD__RECORD_TYPE__RETURN 1

/-- Embeds `handle_exception` (serial.c 197-202) in the build with `IS_PY3K`;
`none` when an `ASSERT` fails. -/
def handle_exception (d : Defs) (s : State3) (frame : PyFrameObject)
    (exc_info : ExcInfo) : Option State3 :=
  match pyobj_to_cstr d s exc_info.item1 with
  | none => none
  | some (repr, s) =>
    let argument0 : Argument :=
      { name := set_string d "exception".toList
        type := set_string d exc_info.item0.tp_name
        value := .live (set_string d repr) }
    handle_trace d { s with st := { s.st with arguments := s.st.arguments.set 0 argument0 } }
      frame RECORD__RECORD_TYPE__EXCEPTION 1

/-- The `switch (what)` of `trace_func` (trace.c 16-25) over the handlers of
this build. -/
def dispatch (d : Defs) (s : State3) : Event → Option State3
  | .call frame => handle_call d s frame
  | .ret frame arg => handle_return d s frame arg
  | .exception frame arg => handle_exception d s frame arg
  | .other _ => some s

/-- Runs the handlers of this build over a sequence of events, first event
first; `none` from the first failed `ASSERT` on. -/
def run (d : Defs) (s : State3) : List Event → Option State3
  | [] => some s
  | e :: es =>
    match dispatch d s e with
    | none => none
    | some s => run d s es

/-- The state `init_serialize` leaves in this build: the initial state and
`refs_count = 0`. -/
def init_serialize (d : Defs) : State3 :=
  { st := Pytrace.init_serialize d, refs_count := 0 }

end Py3

/-! ## Concrete inputs -/

/-- A choice of the constants of `defs.h`, for concrete runs. -/
def exampleDefs : Defs :=
  { MAX_ARGS := 4, MAX_STR_SIZE := 256, DONT_TRACE_NAME := "_dont_trace".toList }

/-- A frame of a function without parameters, by file name and function
name. -/
def frameOf (file name : String) : PyFrameObject :=
  { f_code :=
      { co_argcount := 0, co_flags := 0, co_varnames := [],
        co_filename := file.toList, co_name := name.toList, co_firstlineno := 1 }
    f_locals := none
    f_localsplus := [] }

/-- A do-not-trace call holding a traced-looking call and a further
do-not-trace call, each with its return. -/
def innerEvents : List Event :=
  [ .call (frameOf "a.py" "f"), .call (frameOf "a.py" "_dont_trace_too"),
    .ret (frameOf "a.py" "_dont_trace_too") none, .ret (frameOf "a.py" "f") none ]

/-- A traced call holding a do-not-trace call that itself holds a call, each
with its return: the sequence triggers suppression, stays inside it and
leaves it. -/
def suppressedEvents : List Event :=
  [ .call (frameOf "a.py" "f"), .call (frameOf "a.py" "_dont_trace_me"),
    .call (frameOf "a.py" "g"), .ret (frameOf "a.py" "g") none,
    .ret (frameOf "a.py" "_dont_trace_me") none, .ret (frameOf "a.py" "f") none ]

/-- A value of type `int` with the given repr.  The interpreter shares the
strings of length at most 1, so such a repr has a further reference; a longer
repr is a new string with the one reference. -/
def intObj (repr : String) : PyObject :=
  { ob_type := { tp_name := "int".toList },
    repr := some { ob_refcnt := if repr.length ≤ 1 then 2 else 1, ob_sval := repr.toList } }

/-- A value of type `str` whose repr is 500 bytes long. -/
def longObj : PyObject :=
  { ob_type := { tp_name := "str".toList },
    repr := some { ob_refcnt := 1, ob_sval := List.replicate 500 'x' } }

/-- A frame of `f(a, b, c)` with three bound arguments, the second one with a
500-byte repr. -/
def frame3 : PyFrameObject :=
  { f_code :=
      { co_argcount := 3, co_flags := 0,
        co_varnames := ["a".toList, "b".toList, "c".toList],
        co_filename := "a.py".toList, co_name := "f".toList, co_firstlineno := 1 }
    f_locals := none
    f_localsplus := [some (intObj "1"), some longObj, some (intObj "3")] }

/-- A frame of `g(a, b, c, d, *args, **kw)`: six parameters, all bound. -/
def frame6 : PyFrameObject :=
  { f_code :=
      { co_argcount := 4, co_flags := 12,
        co_varnames := ["a".toList, "b".toList, "c".toList, "d".toList,
          "args".toList, "kw".toList],
        co_filename := "a.py".toList, co_name := "g".toList, co_firstlineno := 7 }
    f_locals := none
    f_localsplus := [some (intObj "1"), some (intObj "2"), some (intObj "3"),
      some (intObj "4"), some (intObj "5"), some (intObj "6")] }

/-- A value whose repr fails. -/
def brokenObj : PyObject :=
  { ob_type := { tp_name := "Broken".toList }, repr := none }

/-- A value whose repr is the empty string, which the interpreter shares. -/
def emptyObj : PyObject :=
  { ob_type := { tp_name := "Empty".toList },
    repr := some { ob_refcnt := 2, ob_sval := [] } }

/-- A value of type `ValueError` whose repr is a new string with the one
reference. -/
def errObj : PyObject :=
  { ob_type := { tp_name := "ValueError".toList },
    repr := some { ob_refcnt := 1, ob_sval := "ValueError('x',)".toList } }

/-- The initial state moved to depth -10001, where 10001 returns without a
traced call lead. -/
def deepState : State :=
  { init_serialize exampleDefs with depth_key := -10001 }

/-- A frame of `h(a, b)` whose `f_locals` dictionary has `b` and lacks
`a`. -/
def frameExec : PyFrameObject :=
  { f_code :=
      { co_argcount := 2, co_flags := 0,
        co_varnames := ["a".toList, "b".toList],
        co_filename := "a.py".toList, co_name := "h".toList, co_firstlineno := 3 }
    f_locals := some [("b".toList, intObj "2")]
    f_localsplus := [none, some (intObj "2")] }

/-- A frame of `h(a, b)` without an `f_locals` dictionary whose fast local `a`
is `NULL` and whose fast local `b` is bound. -/
def frameUnbound : PyFrameObject :=
  { f_code :=
      { co_argcount := 2, co_flags := 0,
        co_varnames := ["a".toList, "b".toList],
        co_filename := "a.py".toList, co_name := "h".toList, co_firstlineno := 3 }
    f_locals := none
    f_localsplus := [none, some (intObj "2")] }

/-- The state after one recorded return without a value from the initial
state: slot 0 holds the `"return value"` argument. -/
def afterReturn : State :=
  handle_return exampleDefs (init_serialize exampleDefs) (frameOf "a.py" "f") none

/-- The events of `n` calls of a do-not-trace function in a row, each with
its return. -/
def triggerWindows : Nat → List Event
  | 0 => []
  | n + 1 =>
    .call (frameOf "a.py" "_dont_trace_me") ::
      .ret (frameOf "a.py" "_dont_trace_me") none :: triggerWindows n

/-- The events of `n` calls of the function of frame `f` in a row, each with
its return. -/
def callWindows (f : PyFrameObject) : Nat → List Event
  | 0 => []
  | n + 1 => .call f :: .ret f none :: callWindows f n

/-- Between a call and its return: a recorded call with its return, and a
do-not-trace call that holds a call, with its return. -/
def betweenEvents : List Event :=
  [ .call (frameOf "a.py" "g"), .ret (frameOf "a.py" "g") none,
    .call (frameOf "a.py" "_dont_trace_me"), .call (frameOf "a.py" "g"),
    .ret (frameOf "a.py" "g") none, .ret (frameOf "a.py" "_dont_trace_me") none ]

/-- The initial state moved to depth 2147473647, the depth from which one more
call and `DEPTH_MAGIC` add up to one more than the largest `int`. -/
def highState : State :=
  { init_serialize exampleDefs with depth_key := 2147473647 }

/-- The initial state moved to depth 2147483647, the largest `int`. -/
def maxState : State :=
  { init_serialize exampleDefs with depth_key := 2147483647 }

/-! ## Lemmas on C strings -/

theorem strlen_eq_length_of_no_nul (s : CStr) (h : NUL ∉ s) : strlen s = s.length := by
  unfold strlen
  have : s.takeWhile (fun c => c != NUL) = s := by
    rw [List.takeWhile_eq_self_iff]
    intro x hx
    have : x ≠ NUL := fun e => h (e ▸ hx)
    simpa using this
  rw [this]

theorem char_sub_ne_zero (a c : Char) (h : a ≠ c) : (a.toNat : Int) - (c.toNat : Int) ≠ 0 := by
  intro h2
  apply h
  have h3 : a.toNat = c.toNat := by omega
  exact Char.ext (UInt32.ext (by simpa [Char.toNat, UInt32.toNat] using h3))

/-- Over the length of the pattern, `strncmp` is 0 exactly when the
pattern's C string is an initial segment of the buffer. -/
theorem strncmp_eq_zero_iff (p : CStr) (a : CStr) :
    strncmp a p (strlen p) = 0 ↔ cstr p <+: a := by
  induction p generalizing a with
  | nil => simp [strncmp, strlen, cstr]
  | cons c p ih =>
    by_cases hc : c = NUL
    · simp [strncmp, strlen, cstr, List.takeWhile_cons, hc]
    · have hc2 : (c != NUL) = true := by simpa using hc
      have hlen : strlen (c :: p) = strlen p + 1 := by
        simp only [strlen, List.takeWhile_cons, hc2, if_true, List.length_cons]
      have hcs : cstr (c :: p) = c :: cstr p := by
        simp only [cstr, List.takeWhile_cons, hc2, if_true]
      rw [hlen, hcs]
      cases a with
      | nil =>
        simp only [strncmp, List.headD_nil, List.headD_cons]
        have h1 : NUL ≠ c := fun e => hc e.symm
        simp [h1, char_sub_ne_zero NUL c h1]
      | cons b a =>
        simp only [strncmp, List.headD_cons, List.tail_cons]
        by_cases hbc : b = c
        · subst hbc
          simp [hc, ih a, List.prefix_cons_inj]
        · simp [hbc, char_sub_ne_zero b c hbc, List.cons_prefix_cons, Ne.symm hbc]

/-- A frame whose function name starts with `DONT_TRACE_NAME` is one
`should_trace_frame` rejects, and conversely. -/
theorem should_trace_frame_eq_false_iff (d : Defs) (frame : PyFrameObject) :
    should_trace_frame d frame = false ↔ cstr d.DONT_TRACE_NAME <+: frame.f_code.co_name := by
  unfold should_trace_frame PYSTR_TO_CHAR
  rw [← strncmp_eq_zero_iff]
  generalize strncmp frame.f_code.co_name d.DONT_TRACE_NAME (strlen d.DONT_TRACE_NAME) = r
  by_cases h : r = 0
  · subst h; simp
  · have h2 : ¬ (0 = r) := fun e => h e.symm
    simp [h, h2]

/-! ## Lemmas on the handlers -/

theorem handle_call_of_suppressed (d : Defs) (s : State) (f : PyFrameObject)
    (h : in_no_trace_context s = true) : handle_call d s f = increment_depth s := by
  have h2 : in_no_trace_context (increment_depth s) = true := h
  simp [handle_call, h2]

theorem handle_call_of_trigger (d : Defs) (s : State) (f : PyFrameObject)
    (h : in_no_trace_context s = false) (hf : should_trace_frame d f = false) :
    handle_call d s f = enter_no_trace_context (increment_depth s) := by
  have h2 : in_no_trace_context (increment_depth s) = false := h
  simp [handle_call, h2, hf]

theorem handle_call_of_traced (d : Defs) (s : State) (f : PyFrameObject)
    (h : in_no_trace_context s = false) (hf : should_trace_frame d f = true) :
    handle_call d s f =
      handle_trace d { increment_depth s with
          arguments := (handle_call_loop d f (increment_depth s).arguments).1 }
        f RECORD__RECORD_TYPE__CALL (handle_call_loop d f (increment_depth s).arguments).2 := by
  have h2 : in_no_trace_context (increment_depth s) = false := h
  simp [handle_call, h2, hf]

theorem handle_return_of_suppressed (d : Defs) (s : State) (f : PyFrameObject)
    (v : Option PyObject) (h : in_no_trace_context s = true) :
    handle_return d s f v =
      if should_exit_no_trace_context (decrement_depth s)
      then exit_no_trace_context (decrement_depth s) else decrement_depth s := by
  have h2 : in_no_trace_context (decrement_depth s) = true := h
  simp [handle_return, h2]

theorem handle_return_of_traced (d : Defs) (s : State) (f : PyFrameObject)
    (v : Option PyObject) (h : in_no_trace_context s = false) :
    handle_return d s f v =
      handle_trace d { decrement_depth s with
          arguments := (decrement_depth s).arguments.set 0
            { name := set_string d "return value".toList
              type := set_string d (v.getD Py_None).ob_type.tp_name
              value := set_string_value d (pyobj_to_cstr (v.getD Py_None)) } }
        f RECORD__RECORD_TYPE__RETURN 1 := by
  have h2 : in_no_trace_context (decrement_depth s) = false := h
  cases v <;> simp [handle_return, h2]

theorem run_cons (d : Defs) (s : State) (e : Event) (es : List Event) :
    run d s (e :: es) = run d (dispatch d s e) es := rfl

theorem run_append (d : Defs) (s : State) (es fs : List Event) :
    run d s (es ++ fs) = run d (run d s es) fs := by
  simp [run, List.foldl_append]

/-! ### The arithmetic of `int` and `long` -/

theorem toInt_of_range (x : Int) (h1 : INT_MIN ≤ x) (h2 : x ≤ INT_MAX) : toInt x = x := by
  simp only [toInt, INT_MIN, INT_MAX] at *
  omega

theorem toInt_range (x : Int) : INT_MIN ≤ toInt x ∧ toInt x ≤ INT_MAX := by
  simp only [toInt, INT_MIN, INT_MAX]
  omega

theorem toLong_of_int_range (x : Int) (h1 : INT_MIN - DEPTH_MAGIC ≤ x) (h2 : x ≤ INT_MAX) :
    toLong x = x := by
  simp only [toLong, INT_MIN, INT_MAX, DEPTH_MAGIC] at *
  omega

theorem get_depth_range (s : State) : INT_MIN ≤ get_depth s ∧ get_depth s ≤ INT_MAX :=
  toInt_range _

theorem get_depth_increment_depth (s : State) :
    get_depth (increment_depth s) = toInt (get_depth s + 1) := by
  have h := toInt_range (get_depth s + 1)
  exact toInt_of_range _ h.1 h.2

theorem get_depth_decrement_depth (s : State) :
    get_depth (decrement_depth s) = toInt (get_depth s - 1) := by
  have h := toInt_range (get_depth s - 1)
  exact toInt_of_range _ h.1 h.2

theorem le_maxOpen (es : List Event) : ∀ k, k ≤ maxOpen k es := by
  induction es with
  | nil => intro k; exact le_refl k
  | cons e es ih =>
    intro k
    cases e with
    | call f => exact le_max_left _ _
    | ret f v => exact le_max_left _ _
    | exception f x => exact ih k
    | other f => exact ih k

/-! ### Inside a suppression window -/

/-- Inside a suppression window with threshold `t` and `k` calls open above
the triggering one, a sequence that is well nested from `k` and keeps the
depth within `int` writes nothing and keeps the threshold at every point, and
ends at the triggering depth. -/
theorem run_suppressed (d : Defs) (t : Int) (ht : t ≠ 0)
    (hlo : INT_MIN ≤ t - DEPTH_MAGIC) (hhi : t ≤ INT_MAX) (es : List Event) :
    ∀ (k : Nat) (s : State), wellNestedFrom k es = true →
      (∀ e ∈ es, e.isException = false) →
      s.no_trace_context_key = t → get_depth s = t - DEPTH_MAGIC + k →
      t - DEPTH_MAGIC + maxOpen k es ≤ INT_MAX →
      (∀ j, (run d s (es.take j)).ring = s.ring ∧
            (run d s (es.take j)).arguments = s.arguments ∧
            (run d s (es.take j)).no_trace_context_key = t) ∧
      get_depth (run d s es) = t - DEPTH_MAGIC := by
  have e1 : INT_MIN = -2147483648 := rfl
  have e2 : INT_MAX = 2147483647 := rfl
  have e3 : DEPTH_MAGIC = 10000 := rfl
  induction es with
  | nil =>
    intro k s hw _ hs hd _
    have hk : k = 0 := by simpa [wellNestedFrom] using hw
    subst hk
    refine ⟨fun j => ?_, ?_⟩
    · simp [run, hs]
    · simpa [run] using hd
  | cons e es ih =>
    intro k s hw hex hs hd hmax
    have hexs : ∀ e ∈ es, e.isException = false := fun x hx => hex x (by simp [hx])
    have hsup : in_no_trace_context s = true := by simp [in_no_trace_context, hs, ht]
    have hrange := get_depth_range s
    -- the state after `e`, with the count of open calls after it
    have step : ∃ k2, wellNestedFrom k2 es = true ∧
        (dispatch d s e).ring = s.ring ∧ (dispatch d s e).arguments = s.arguments ∧
        (dispatch d s e).no_trace_context_key = t ∧
        get_depth (dispatch d s e) = t - DEPTH_MAGIC + k2 ∧
        t - DEPTH_MAGIC + maxOpen k2 es ≤ INT_MAX := by
      cases e with
      | call f =>
        have hm1 : maxOpen (k + 1) es ≤ maxOpen k (Event.call f :: es) := le_max_right _ _
        have hm2 := le_maxOpen es (k + 1)
        refine ⟨k + 1, by simpa [wellNestedFrom] using hw, ?_⟩
        simp only [dispatch, handle_call_of_suppressed d s f hsup]
        refine ⟨rfl, rfl, hs, ?_, by omega⟩
        rw [get_depth_increment_depth, toInt_of_range _ (by omega) (by omega)]
        push_cast
        omega
      | ret f v =>
        cases k with
        | zero => simp [wellNestedFrom] at hw
        | succ k =>
          have hm1 : maxOpen k es ≤ maxOpen (k + 1) (Event.ret f v :: es) := le_max_right _ _
          have hdd : get_depth (decrement_depth s) = t - DEPTH_MAGIC + k := by
            rw [get_depth_decrement_depth, toInt_of_range _ (by omega) (by omega)]
            push_cast at hd
            omega
          refine ⟨k, by simpa [wellNestedFrom] using hw, ?_⟩
          have hkey : (decrement_depth s).no_trace_context_key = t := hs
          have hne : should_exit_no_trace_context (decrement_depth s) = false := by
            simp only [should_exit_no_trace_context, hkey, hdd, decide_eq_false_iff_not]
            rw [toLong_of_int_range _ (by omega) (by omega)]
            omega
          simp only [dispatch, handle_return_of_suppressed d s f v hsup, hne]
          exact ⟨rfl, rfl, hs, hdd, by omega⟩
      | exception f x =>
        have := hex (Event.exception f x) (by simp)
        simp [Event.isException] at this
      | other f =>
        exact ⟨k, by simpa [wellNestedFrom] using hw, rfl, rfl, hs, hd, hmax⟩
    obtain ⟨k2, hw2, hr, ha, hn, hd2, hmax2⟩ := step
    obtain ⟨ih1, ih2⟩ := ih k2 (dispatch d s e) hw2 hexs hn hd2 hmax2
    refine ⟨fun j => ?_, ?_⟩
    · cases j with
      | zero => simp [run, hs]
      | succ j =>
        rw [List.take_succ_cons, run_cons]
        obtain ⟨a, b, c⟩ := ih1 j
        exact ⟨a.trans hr, b.trans ha, c⟩
    · rw [run_cons]; exact ih2

/-! ## C1: the suppression window -/

/-- C1 as stated fails at depth 2147473647: suppression is inactive there, the
depth is at least 0 and the frame's name starts with `DONT_TRACE_NAME`; the
triggering call stores the `int` sum of depth 2147473648 and `DEPTH_MAGIC`,
which has wrapped to -2147483648, and after the matching return (the inner
sequence being empty) suppression is still active. -/
theorem suppression_not_cleared_at_high_depth :
    in_no_trace_context highState = false ∧
    0 ≤ get_depth highState ∧
    cstr exampleDefs.DONT_TRACE_NAME <+: (frameOf "a.py" "_dont_trace_me").f_code.co_name ∧
    wellNested [] = true ∧
    (handle_call exampleDefs highState (frameOf "a.py" "_dont_trace_me")).no_trace_context_key
      = -2147483648 ∧
    ¬ in_no_trace_context (handle_return exampleDefs
        (run exampleDefs (handle_call exampleDefs highState (frameOf "a.py" "_dont_trace_me")) [])
        (frameOf "a.py" "_dont_trace_me") none) = false := by
  decide

/-- C1, amended. From a state with suppression inactive and depth `D >= 0`
such that `D + 1 + DEPTH_MAGIC` is within `int`, run `handle_call` on a frame
whose function name starts with `DONT_TRACE_NAME`, then a well-nested
sequence of call and return events that keeps the depth within `int`, then
the matching `handle_return`.  After the triggering call and after every
inner event (`j` events of the sequence, `j = 0` being the triggering call
alone) nothing has been written, suppression is active and the stored
threshold is the one the triggering call stored; after the matching return
nothing has been written, suppression is inactive and the depth is `D`
again; and the next return, or the next call of a function that is not
do-not-trace, writes one record. -/
theorem suppression_window (d : Defs) (s : State) (f fr : PyFrameObject)
    (es : List Event) (v : Option PyObject)
    (hin : in_no_trace_context s = false) (hD : 0 ≤ get_depth s)
    (hmagic : get_depth s + 1 + DEPTH_MAGIC ≤ INT_MAX)
    (hopen : get_depth s + 1 + maxOpen 0 es ≤ INT_MAX)
    (hname : cstr d.DONT_TRACE_NAME <+: f.f_code.co_name)
    (hes : wellNested es = true)
    (hcr : ∀ e ∈ es, e.isException = false) :
    (∀ j, (run d (handle_call d s f) (es.take j)).ring = s.ring ∧
          in_no_trace_context (run d (handle_call d s f) (es.take j)) = true ∧
          (run d (handle_call d s f) (es.take j)).no_trace_context_key
            = get_depth s + 1 + DEPTH_MAGIC) ∧
    (handle_return d (run d (handle_call d s f) es) fr v).ring = s.ring ∧
    in_no_trace_context (handle_return d (run d (handle_call d s f) es) fr v) = false ∧
    get_depth (handle_return d (run d (handle_call d s f) es) fr v) = get_depth s ∧
    (∀ g w, ∃ r, (handle_return d
        (handle_return d (run d (handle_call d s f) es) fr v) g w).ring = s.ring ++ [r]) ∧
    (∀ g, should_trace_frame d g = true → ∃ r, (handle_call d
        (handle_return d (run d (handle_call d s f) es) fr v) g).ring = s.ring ++ [r]) := by
  have e1 : INT_MIN = -2147483648 := rfl
  have e2 : INT_MAX = 2147483647 := rfl
  have e3 : DEPTH_MAGIC = 10000 := rfl
  have hf : should_trace_frame d f = false :=
    (should_trace_frame_eq_false_iff d f).2 hname
  have ht : get_depth s + 1 + DEPTH_MAGIC ≠ 0 := by omega
  have h1 : handle_call d s f = enter_no_trace_context (increment_depth s) :=
    handle_call_of_trigger d s f hin hf
  have hinc : get_depth (increment_depth s) = get_depth s + 1 := by
    rw [get_depth_increment_depth, toInt_of_range _ (by omega) (by omega)]
  have hk : (handle_call d s f).no_trace_context_key = get_depth s + 1 + DEPTH_MAGIC := by
    rw [h1]
    show toInt (get_depth (increment_depth s) + DEPTH_MAGIC) = _
    rw [hinc, toInt_of_range _ (by omega) (by omega)]
  have hd : get_depth (handle_call d s f)
      = get_depth s + 1 + DEPTH_MAGIC - DEPTH_MAGIC + ((0 : Nat) : Int) := by
    rw [h1]
    show get_depth (increment_depth s) = _
    rw [hinc]; simp
  have hr : (handle_call d s f).ring = s.ring := by rw [h1]; rfl
  obtain ⟨hpre, hend⟩ := run_suppressed d _ ht (by omega) (by omega) es 0
    (handle_call d s f) hes hcr hk hd (by omega)
  have hall := hpre es.length
  rw [List.take_length] at hall
  obtain ⟨hring, -, hkey⟩ := hall
  have hsup : in_no_trace_context (run d (handle_call d s f) es) = true := by
    simp [in_no_trace_context, hkey, ht]
  have hdec : get_depth (decrement_depth (run d (handle_call d s f) es)) = get_depth s := by
    rw [get_depth_decrement_depth, hend, toInt_of_range _ (by omega) (by omega)]
    omega
  have hkey2 : (decrement_depth (run d (handle_call d s f) es)).no_trace_context_key
      = get_depth s + 1 + DEPTH_MAGIC := hkey
  have hexit : should_exit_no_trace_context
      (decrement_depth (run d (handle_call d s f) es)) = true := by
    simp only [should_exit_no_trace_context, hkey2, hdec, decide_eq_true_eq]
    rw [toLong_of_int_range _ (by omega) (by omega)]
    omega
  have hret : handle_return d (run d (handle_call d s f) es) fr v
      = exit_no_trace_context (decrement_depth (run d (handle_call d s f) es)) := by
    rw [handle_return_of_suppressed d _ fr v hsup, hexit]; rfl
  have hin2 : in_no_trace_context
      (handle_return d (run d (handle_call d s f) es) fr v) = false := by
    rw [hret]; rfl
  have hring2 : (handle_return d (run d (handle_call d s f) es) fr v).ring = s.ring := by
    rw [hret]
    simp only [exit_no_trace_context, decrement_depth]
    rw [hring, hr]
  refine ⟨fun j => ?_, hring2, hin2, ?_, ?_, ?_⟩
  · obtain ⟨a, -, c⟩ := hpre j
    refine ⟨a.trans hr, ?_, c⟩
    simp [in_no_trace_context, c, ht]
  · rw [hret]
    exact hdec
  · intro g w
    rw [handle_return_of_traced d _ g w hin2]
    simp only [handle_trace, ring_write, decrement_depth]
    rw [hring2]
    exact ⟨_, rfl⟩
  · intro g hg
    rw [handle_call_of_traced d _ g hin2 hg]
    simp only [handle_trace, ring_write, increment_depth]
    rw [hring2]
    exact ⟨_, rfl⟩

/-- C1 amended, at a concrete window: from the initial state, a do-not-trace
call that holds a call of `f`, which holds a further do-not-trace call. -/
theorem suppression_window_witness :
    (handle_return exampleDefs
        (run exampleDefs (handle_call exampleDefs (init_serialize exampleDefs)
          (frameOf "a.py" "_dont_trace_me")) innerEvents)
        (frameOf "a.py" "_dont_trace_me") none).ring = [] ∧
    in_no_trace_context (handle_return exampleDefs
        (run exampleDefs (handle_call exampleDefs (init_serialize exampleDefs)
          (frameOf "a.py" "_dont_trace_me")) innerEvents)
        (frameOf "a.py" "_dont_trace_me") none) = false ∧
    get_depth (handle_return exampleDefs
        (run exampleDefs (handle_call exampleDefs (init_serialize exampleDefs)
          (frameOf "a.py" "_dont_trace_me")) innerEvents)
        (frameOf "a.py" "_dont_trace_me") none) = 0 :=
  have h := suppression_window exampleDefs (init_serialize exampleDefs)
    (frameOf "a.py" "_dont_trace_me") (frameOf "a.py" "_dont_trace_me") innerEvents none
    (by decide) (by decide) (by decide) (by decide) (by decide) (by decide) (by decide)
  ⟨h.2.1, h.2.2.1, h.2.2.2.1⟩

/-! ## C2: the depth is a stack counter -/

theorem get_depth_handle_call (d : Defs) (s : State) (f : PyFrameObject) :
    get_depth (handle_call d s f) = toInt (get_depth s + 1) := by
  rw [← get_depth_increment_depth]
  unfold handle_call
  simp only []
  split
  · rfl
  · split <;> rfl

theorem get_depth_handle_return (d : Defs) (s : State) (f : PyFrameObject)
    (v : Option PyObject) : get_depth (handle_return d s f v) = toInt (get_depth s - 1) := by
  rw [← get_depth_decrement_depth]
  unfold handle_return
  simp only []
  split
  · split <;> rfl
  · rfl

theorem get_depth_handle_exception (d : Defs) (s : State) (f : PyFrameObject)
    (x : ExcInfo) : get_depth (handle_exception d s f x) = get_depth s := rfl

theorem get_depth_run (d : Defs) (es : List Event) :
    ∀ (k : Nat) (s : State), wellNestedFrom k es = true →
      get_depth (run d s es) = toInt (get_depth s - k) := by
  induction es with
  | nil =>
    intro k s hw
    have hk : k = 0 := by simpa [wellNestedFrom] using hw
    subst hk
    have h := get_depth_range s
    simp only [run, List.foldl_nil, Nat.cast_zero, sub_zero]
    exact (toInt_of_range _ h.1 h.2).symm
  | cons e es ih =>
    intro k s hw
    rw [run_cons]
    cases e with
    | call f =>
      rw [ih (k + 1) _ (by simpa [wellNestedFrom] using hw)]
      simp only [dispatch, get_depth_handle_call, toInt]
      push_cast
      omega
    | ret f v =>
      cases k with
      | zero => simp [wellNestedFrom] at hw
      | succ k =>
        rw [ih k _ (by simpa [wellNestedFrom] using hw)]
        simp only [dispatch, get_depth_handle_return, toInt]
        push_cast
        omega
    | exception f x =>
      rw [ih k _ (by simpa [wellNestedFrom] using hw)]
      simp only [dispatch, get_depth_handle_exception]
    | other f =>
      rw [ih k _ (by simpa [wellNestedFrom] using hw)]
      simp only [dispatch]

theorem get_depth_run_wellNested (d : Defs) (s : State) (es : List Event)
    (hes : wellNested es = true) : get_depth (run d s es) = get_depth s := by
  have h := get_depth_run d es 0 s hes
  have hr := get_depth_range s
  rw [h]
  simp only [Nat.cast_zero, sub_zero]
  exact toInt_of_range _ hr.1 hr.2

/-- C2 as stated fails at depth 2147483647, the largest `int`: `handle_call`
leaves the depth at -2147483648, not at one more; and `handle_return` at
that depth leaves 2147483647, not one less. -/
theorem depth_wraps_at_int_max :
    get_depth maxState = 2147483647 ∧
    get_depth (handle_call exampleDefs maxState (frameOf "a.py" "f")) = -2147483648 ∧
    ¬ get_depth (handle_call exampleDefs maxState (frameOf "a.py" "f"))
        = get_depth maxState + 1 ∧
    ¬ get_depth (handle_return exampleDefs
          (handle_call exampleDefs maxState (frameOf "a.py" "f")) (frameOf "a.py" "f") none)
        = get_depth (handle_call exampleDefs maxState (frameOf "a.py" "f")) - 1 := by
  decide

/-- C2, amended. For every state, suppression active or not, and every
well-nested sequence of events, the depth after the sequence is the depth
before it.  In every state, whatever the frame and whether or not a record
is written, `handle_call` adds 1 to the depth in `int` arithmetic, which is
exactly 1 more unless the depth is the largest `int`, and `handle_return`
subtracts 1 in `int` arithmetic, which is exactly 1 less unless the depth
is the smallest `int`. -/
theorem depth_is_stack_counter (d : Defs) (s : State) (es : List Event)
    (hes : wellNested es = true) :
    get_depth (run d s es) = get_depth s ∧
    (∀ (t : State) (f : PyFrameObject),
      get_depth (handle_call d t f) = toInt (get_depth t + 1) ∧
      (get_depth t < INT_MAX → get_depth (handle_call d t f) = get_depth t + 1)) ∧
    (∀ (t : State) (f : PyFrameObject) (v : Option PyObject),
      get_depth (handle_return d t f v) = toInt (get_depth t - 1) ∧
      (INT_MIN < get_depth t → get_depth (handle_return d t f v) = get_depth t - 1)) := by
  have e1 : INT_MIN = -2147483648 := rfl
  have e2 : INT_MAX = 2147483647 := rfl
  refine ⟨get_depth_run_wellNested d s es hes, fun t f => ⟨get_depth_handle_call d t f, ?_⟩,
    fun t f v => ⟨get_depth_handle_return d t f v, ?_⟩⟩
  · intro h
    have hr := get_depth_range t
    rw [get_depth_handle_call, toInt_of_range _ (by omega) (by omega)]
  · intro h
    have hr := get_depth_range t
    rw [get_depth_handle_return, toInt_of_range _ (by omega) (by omega)]

/-- C2 amended, at a concrete sequence that triggers suppression, stays inside
it and leaves it, started at depth 0. -/
theorem depth_is_stack_counter_witness :
    get_depth (run exampleDefs (init_serialize exampleDefs) suppressedEvents) = 0 :=
  (depth_is_stack_counter exampleDefs (init_serialize exampleDefs) suppressedEvents
    (by decide)).1

/-! ## C3: the module filter -/

theorem should_trace_module_cons (p : CStr) (ps : List CStr) (frame : PyFrameObject) :
    should_trace_module (some (p :: ps)) frame
      = some (strncmp frame.f_code.co_filename p (strlen p) == 0) := by
  simp [should_trace_module, should_trace_module_loop, PyString_AsString]

/-- C3, the code at a filter list of two prefixes and a file name that
starts with the second one only: `should_trace_module` compares with the
first entry alone and returns false, and `trace_func` leaves the state as it
was; with an empty list the function ends without a return value. -/
theorem should_trace_module_second_entry :
    "b".toList <+: (frameOf "b.py" "f").f_code.co_filename ∧
    should_trace_module (some ["a".toList, "b".toList]) (frameOf "b.py" "f") = some false ∧
    trace_func exampleDefs (some ["a".toList, "b".toList]) (init_serialize exampleDefs)
      (.call (frameOf "b.py" "f")) = some (init_serialize exampleDefs) ∧
    should_trace_module (some []) (frameOf "b.py" "f") = none := by
  decide

/-! ## C4: string truncation -/

theorem strlen_replicate (n : Nat) (c : Char) (hc : c ≠ NUL) :
    strlen (List.replicate n c) = n := by
  rw [strlen_eq_length_of_no_nul, List.length_replicate]
  intro h
  exact hc (List.eq_of_mem_replicate h).symm

theorem strlen_le_length (s : CStr) : strlen s ≤ s.length :=
  (List.takeWhile_sublist _).length_le

theorem take_strlen (s : CStr) : s.take (strlen s) = cstr s := by
  unfold strlen cstr
  induction s with
  | nil => rfl
  | cons c s ih =>
    by_cases h : c = NUL
    · simp [List.takeWhile_cons, h]
    · have h2 : (c != NUL) = true := by simpa using h
      simp only [List.takeWhile_cons, h2, if_true, List.length_cons, List.take_succ_cons, ih]

/-- C4. For every string `s`, `set_string` sets the length to
`min(strlen(s), MAX_STR_SIZE)` and the field is the first that many bytes of
`s`; when `s` is longer than `MAX_STR_SIZE` the field has exactly
`MAX_STR_SIZE` bytes and is an initial segment of `s`, and when it is not
longer the field is the string `s`. -/
theorem set_string_truncates (d : Defs) (s : CStr) :
    (set_string d s).len = min (strlen s) d.MAX_STR_SIZE ∧
    (set_string d s).bytes = s.take (min (strlen s) d.MAX_STR_SIZE) ∧
    (set_string d s).bytes.length = min (strlen s) d.MAX_STR_SIZE ∧
    (d.MAX_STR_SIZE < strlen s →
      (set_string d s).len = d.MAX_STR_SIZE ∧
      (set_string d s).bytes.length = d.MAX_STR_SIZE ∧
      (set_string d s).bytes <+: cstr s) ∧
    (strlen s ≤ d.MAX_STR_SIZE → (set_string d s).bytes = cstr s) := by
  have hl := strlen_le_length s
  refine ⟨rfl, rfl, ?_, fun h => ⟨?_, ?_, ?_⟩, fun h => ?_⟩
  · simp only [ProtobufCBinaryData.bytes, set_string, List.length_take]
    omega
  · simp only [set_string]; omega
  · simp only [ProtobufCBinaryData.bytes, set_string, List.length_take]
    omega
  · simp only [ProtobufCBinaryData.bytes, set_string]
    rw [← take_strlen s, Nat.min_eq_right (Nat.le_of_lt h), List.prefix_take_iff]
    rw [List.length_take]
    refine ⟨List.take_prefix _ _, ?_⟩
    omega
  · simp only [ProtobufCBinaryData.bytes, set_string]
    rw [Nat.min_eq_left h, take_strlen]

/-- C4 at a 500-byte string with `MAX_STR_SIZE = 256`: the field has exactly
256 bytes, the first 256 of the string. -/
theorem set_string_truncates_witness :
    (set_string exampleDefs (List.replicate 500 'x')).len = 256 ∧
    (set_string exampleDefs (List.replicate 500 'x')).bytes.length = 256 ∧
    (set_string exampleDefs (List.replicate 500 'x')).bytes
      <+: cstr (List.replicate 500 'x') :=
  (set_string_truncates exampleDefs (List.replicate 500 'x')).2.2.2.1
    (by rw [strlen_replicate 500 'x' (by decide)]; decide)

/-! ## C5: the argument count -/

theorem handle_call_body_count (d : Defs) (f : PyFrameObject)
    (st : List Argument × Nat) (i : Nat) :
    (handle_call_body d f st i).2 = st.2 + (if (arg_value f i).isSome then 1 else 0) := by
  unfold handle_call_body
  cases h : arg_value f i <;> simp

theorem foldl_handle_call_body_count (d : Defs) (f : PyFrameObject) (l : List Nat) :
    ∀ st : List Argument × Nat,
      (l.foldl (handle_call_body d f) st).2
        = st.2 + (l.filter (fun i => (arg_value f i).isSome)).length := by
  induction l with
  | nil => intro st; simp
  | cons i l ih =>
    intro st
    rw [List.foldl_cons, ih, handle_call_body_count, List.filter_cons]
    by_cases h : (arg_value f i).isSome = true
    · simp [h]; omega
    · simp [h]

theorem handle_call_loop_count (d : Defs) (f : PyFrameObject) (args : List Argument) :
    (handle_call_loop d f args).2
      = ((List.range (min (argcount f) d.MAX_ARGS)).filter
          (fun i => (arg_value f i).isSome)).length := by
  unfold handle_call_loop
  rw [foldl_handle_call_body_count]
  simp

/-- C5. A call that `handle_call` records (suppression inactive, name not
do-not-trace) writes one record of kind Call whose `n_arguments` is the
number of parameters among the first `min(k, MAX_ARGS)` that have a value,
`k` being `co_argcount` plus one for each of the two flags that is set; it
never exceeds `MAX_ARGS`, and it is `min(k, MAX_ARGS)` when each of these
parameters has a value. -/
theorem call_argument_count (d : Defs) (s : State) (f : PyFrameObject)
    (hin : in_no_trace_context s = false) (hf : should_trace_frame d f = true) :
    argcount f = f.f_code.co_argcount
        + (if f.f_code.co_flags &&& CO_VARARGS != 0 then 1 else 0)
        + (if f.f_code.co_flags &&& CO_VARKEYWORDS != 0 then 1 else 0) ∧
    ∃ r, (handle_call d s f).ring = s.ring ++ [r] ∧
      r.type = RECORD__RECORD_TYPE__CALL ∧
      r.n_arguments = ((List.range (min (argcount f) d.MAX_ARGS)).filter
          (fun i => (arg_value f i).isSome)).length ∧
      r.n_arguments ≤ d.MAX_ARGS ∧
      ((∀ i, i < min (argcount f) d.MAX_ARGS → arg_value f i ≠ none) →
        r.n_arguments = min (argcount f) d.MAX_ARGS) := by
  constructor
  · unfold argcount
    by_cases h1 : (f.f_code.co_flags &&& CO_VARARGS != 0) = true <;>
      by_cases h2 : (f.f_code.co_flags &&& CO_VARKEYWORDS != 0) = true <;>
      simp [h1, h2]
  · rw [handle_call_of_traced d s f hin hf]
    refine ⟨_, rfl, rfl, handle_call_loop_count d f _, ?_, ?_⟩
    · show (handle_call_loop d f _).2 ≤ d.MAX_ARGS
      rw [handle_call_loop_count]
      have h := List.length_filter_le (fun i => (arg_value f i).isSome)
        (List.range (min (argcount f) d.MAX_ARGS))
      rw [List.length_range] at h
      omega
    · intro hall
      show (handle_call_loop d f _).2 = min (argcount f) d.MAX_ARGS
      rw [handle_call_loop_count]
      have hfil : (List.range (min (argcount f) d.MAX_ARGS)).filter
          (fun i => (arg_value f i).isSome)
          = List.range (min (argcount f) d.MAX_ARGS) := by
        rw [List.filter_eq_self]
        intro i hi
        have := hall i (List.mem_range.1 hi)
        cases h : arg_value f i with
        | none => exact absurd h this
        | some v => rfl
      rw [hfil, List.length_range]

/-- C5 at two calls from the initial state with `MAX_ARGS = 4`: three bound
arguments give `n_arguments = 3`; six bound parameters give
`n_arguments = 4`. -/
theorem call_argument_count_witness :
    (∃ r, (handle_call exampleDefs (init_serialize exampleDefs) frame3).ring = [r] ∧
      r.n_arguments = 3) ∧
    (∃ r, (handle_call exampleDefs (init_serialize exampleDefs) frame6).ring = [r] ∧
      r.n_arguments = 4) := by
  constructor
  · obtain ⟨-, r, h1, -, -, -, h5⟩ := call_argument_count exampleDefs
      (init_serialize exampleDefs) frame3 (by decide) (by decide)
    exact ⟨r, h1, h5 (by decide)⟩
  · obtain ⟨-, r, h1, -, -, -, h5⟩ := call_argument_count exampleDefs
      (init_serialize exampleDefs) frame6 (by decide) (by decide)
    exact ⟨r, h1, h5 (by decide)⟩

/-! ## C6 and C7: exception and return records -/

theorem take_one_set_zero (l : List Argument) (a : Argument) (h : 0 < l.length) :
    (l.set 0 a).take 1 = [a] := by
  cases l with
  | nil => simp at h
  | cons b l => simp

theorem bytes_set_string_of_le (d : Defs) (s : CStr) (hn : NUL ∉ s)
    (h : s.length ≤ d.MAX_STR_SIZE) : (set_string d s).bytes = s := by
  have hs := strlen_eq_length_of_no_nul s hn
  simp only [ProtobufCBinaryData.bytes, set_string, hs, Nat.min_eq_left h, List.take_length]

/-- What holds of `handle_exception` in every state, suppression active or
not: it writes exactly one record, of kind Exception with `n_arguments = 1`,
whose one encoded argument has the name and type fields `set_string` makes
of `"exception"` and of the exception type's `tp_name`, and as value what
packing reads for the field set from `pyobj_to_cstr` of the exception
value; the name field is `"exception"` itself once `MAX_STR_SIZE` is at
least its length; depth and suppression state are as before. -/
theorem exception_capture (d : Defs) (s : State) (f : PyFrameObject) (x : ExcInfo)
    (h0 : 0 < s.arguments.length) :
    (∃ r, (handle_exception d s f x).ring = s.ring ++ [r] ∧
      r.type = RECORD__RECORD_TYPE__EXCEPTION ∧
      r.n_arguments = 1 ∧
      r.arguments =
        [{ name := (set_string d "exception".toList).bytes
           type := (set_string d x.item0.tp_name).bytes
           value := (set_string_value d (pyobj_to_cstr x.item1)).pack }]) ∧
    (9 ≤ d.MAX_STR_SIZE → (set_string d "exception".toList).bytes = "exception".toList) ∧
    get_depth (handle_exception d s f x) = get_depth s ∧
    (handle_exception d s f x).no_trace_context_key = s.no_trace_context_key ∧
    in_no_trace_context (handle_exception d s f x) = in_no_trace_context s := by
  refine ⟨⟨_, rfl, rfl, rfl, ?_⟩, fun h => ?_, rfl, rfl, rfl⟩
  · simp only [record__pack, take_one_set_zero _ _ h0, List.map_cons, List.map_nil]
  · exact bytes_set_string_of_le d _ (by decide) h

/-- C6, the code at an exception whose value has a new string as repr, in a
state inside a suppression window.  One record of kind Exception with
`n_arguments = 1` is written, with the name `"exception"` and the type name;
but `pyobj_to_cstr` has released the repr string before the value field is
set, so the field points into released storage and what the record carries
as value is read from there. -/
theorem exception_record_value_released :
    in_no_trace_context (handle_call exampleDefs (init_serialize exampleDefs)
      (frameOf "a.py" "_dont_trace_me")) = true ∧
    pyobj_to_cstr errObj = .released "ValueError('x',)".toList ∧
    (handle_exception exampleDefs
        (handle_call exampleDefs (init_serialize exampleDefs) (frameOf "a.py" "_dont_trace_me"))
        (frameOf "a.py" "g") ⟨⟨"ValueError".toList⟩, errObj⟩).ring
      = [{ type := RECORD__RECORD_TYPE__EXCEPTION
           n_arguments := 1
           depth := 1
           module := "a.py".toList
           function := "g".toList
           lineno := 1
           arguments := [{ name := "exception".toList
                           type := "ValueError".toList
                           value := .released "ValueError('x',)".toList }] }] := by
  decide

/-- What holds of `handle_return`.  With suppression inactive it writes
exactly one record, of kind Return with `n_arguments = 1`, whose one encoded
argument has the name and type fields `set_string` makes of
`"return value"` and of the value's `tp_name`, and as value what packing
reads for the field set from `pyobj_to_cstr` of the value, the value being
`Py_None` when the return value is `NULL`; the name field is
`"return value"` itself once `MAX_STR_SIZE` is at least its length.  With
suppression active, whether or not this return clears it, `handle_return`
writes nothing. -/
theorem return_capture (d : Defs) (s : State) (f : PyFrameObject) (v : Option PyObject)
    (h0 : 0 < s.arguments.length) :
    (in_no_trace_context s = false →
      ∃ r, (handle_return d s f v).ring = s.ring ++ [r] ∧
        r.type = RECORD__RECORD_TYPE__RETURN ∧
        r.n_arguments = 1 ∧
        r.arguments =
          [{ name := (set_string d "return value".toList).bytes
             type := (set_string d (v.getD Py_None).ob_type.tp_name).bytes
             value := (set_string_value d (pyobj_to_cstr (v.getD Py_None))).pack }]) ∧
    (12 ≤ d.MAX_STR_SIZE →
      (set_string d "return value".toList).bytes = "return value".toList) ∧
    handle_return d s f none = handle_return d s f (some Py_None) ∧
    (in_no_trace_context s = true → (handle_return d s f v).ring = s.ring) := by
  refine ⟨fun hin => ?_, fun h => ?_, ?_, fun hin => ?_⟩
  · rw [handle_return_of_traced d s f v hin]
    refine ⟨_, rfl, rfl, rfl, ?_⟩
    have h1 : 0 < (decrement_depth s).arguments.length := h0
    simp only [record__pack, handle_trace, take_one_set_zero _ _ h1, List.map_cons, List.map_nil]
  · exact bytes_set_string_of_le d _ (by decide) h
  · rfl
  · rw [handle_return_of_suppressed d s f v hin]
    split <;> rfl

/-- C7, the code at a return without a value from the initial state.  One
record of kind Return with `n_arguments = 1` is written, with the name
`"return value"` and the type name of `None`; but `pyobj_to_cstr` has
released the repr string of `None` before the value field is set, so the
field points into released storage and what the record carries as value is
read from there. -/
theorem return_record_value_released :
    pyobj_to_cstr Py_None = .released "None".toList ∧
    (handle_return exampleDefs (init_serialize exampleDefs) (frameOf "a.py" "f") none).ring
      = [{ type := RECORD__RECORD_TYPE__RETURN
           n_arguments := 1
           depth := -1
           module := "a.py".toList
           function := "f".toList
           lineno := 1
           arguments := [{ name := "return value".toList
                           type := "NoneType".toList
                           value := .released "None".toList }] }] := by
  decide

/-! ## C8: stringification -/

theorem cstr_eq_nil_iff (s : CStr) : cstr s = [] ↔ (s.headD NUL == NUL) = true := by
  cases s with
  | nil => simp [cstr]
  | cons c s =>
    by_cases h : c = NUL
    · simp [cstr, List.takeWhile_cons, h]
    · simp [cstr, List.takeWhile_cons, h]

/-- What holds of `pyobj_to_cstr`: the placeholder `"STR FAILED"` when taking
the repr fails; when the repr string keeps a reference after the `Py_DECREF`,
the string of two quotes for an empty repr and the repr itself otherwise;
and the outcome of running on released storage when the `Py_DECREF` drops
the last reference. -/
theorem pyobj_to_cstr_cases (obj : PyObject) :
    (PyObject_Repr obj = none → pyobj_to_cstr obj = .live "STR FAILED".toList) ∧
    (∀ s, PyObject_Repr obj = some s → 2 ≤ s.ob_refcnt → cstr s.ob_sval = [] →
      pyobj_to_cstr obj = .live "''".toList) ∧
    (∀ s, PyObject_Repr obj = some s → 2 ≤ s.ob_refcnt → cstr s.ob_sval ≠ [] →
      pyobj_to_cstr obj = .live s.ob_sval) ∧
    (∀ s, PyObject_Repr obj = some s → s.ob_refcnt ≤ 1 →
      pyobj_to_cstr obj = .released s.ob_sval) := by
  refine ⟨fun h => ?_, fun s h hr hs => ?_, fun s h hr hs => ?_, fun s h hr => ?_⟩
  · simp [pyobj_to_cstr, h, STR_FAILED]
  · have h2 := (cstr_eq_nil_iff s.ob_sval).1 hs
    have h3 : (s.ob_refcnt - 1 == 0) = false := by
      rw [beq_eq_false_iff_ne]; omega
    simp only [pyobj_to_cstr, h, PYSTR_TO_CHAR, Py_DECREF, h3, h2, if_true, EMPTY_REPR]
    rfl
  · have h2 : ¬ (s.ob_sval.headD NUL == NUL) = true :=
      fun e => hs ((cstr_eq_nil_iff s.ob_sval).2 e)
    have h3 : (s.ob_refcnt - 1 == 0) = false := by
      rw [beq_eq_false_iff_ne]; omega
    simp only [pyobj_to_cstr, h, PYSTR_TO_CHAR, Py_DECREF, h3, if_neg h2]
    rfl
  · have h3 : s.ob_refcnt - 1 = 0 := by omega
    simp [pyobj_to_cstr, h, PYSTR_TO_CHAR, Py_DECREF, h3]

/-- C8, the code at values whose repr is a new string with the one reference
(the integer 20, `None`): line 58 releases the repr string, so `result[0]` is
read from released storage and the pointer returned points into it; the
outcome is not the repr.  At a failing repr, and at a repr string that keeps
a reference, the code does what the claim says. -/
theorem pyobj_to_cstr_result_released :
    pyobj_to_cstr (intObj "20") = .released "20".toList ∧
    pyobj_to_cstr Py_None = .released "None".toList ∧
    pyobj_to_cstr brokenObj = .live "STR FAILED".toList ∧
    pyobj_to_cstr emptyObj = .live "''".toList ∧
    pyobj_to_cstr (intObj "1") = .live "1".toList := by
  decide

/-! ## C9: the sentinel offset -/

theorem run_returns (d : Defs) (f : PyFrameObject) (n : Nat) :
    ∀ s : State, in_no_trace_context s = false →
      in_no_trace_context (run d s (List.replicate n (.ret f none))) = false ∧
      get_depth (run d s (List.replicate n (.ret f none))) = toInt (get_depth s - n) := by
  induction n with
  | zero =>
    intro s h
    have hr := get_depth_range s
    simp only [run, List.replicate_zero, List.foldl_nil, Nat.cast_zero, sub_zero]
    exact ⟨h, (toInt_of_range _ hr.1 hr.2).symm⟩
  | succ n ih =>
    intro s h
    rw [List.replicate_succ, run_cons]
    have h2 : in_no_trace_context (dispatch d s (.ret f none)) = false := by
      simp only [dispatch, handle_return_of_traced d s f none h]
      exact h
    obtain ⟨a, b⟩ := ih _ h2
    refine ⟨a, ?_⟩
    rw [b]
    simp only [dispatch, get_depth_handle_return, toInt]
    push_cast
    omega

/-- C9 as stated fails at two depths.  At depth -10001, the depth 10001
returns without a traced call lead to from the initial state, suppression is
inactive, the frame's name starts with `DONT_TRACE_NAME`, and after
`handle_call` the value stored is `NULL`, so `in_no_trace_context` still
reports that suppression is not active.  At depth 2147473647 the `int` sum of
the depth at entry, 2147473648, and `DEPTH_MAGIC` wraps to -2147483648, which
decodes to -2147493648 and not to the depth at entry. -/
theorem sentinel_collides_at_minus_magic :
    get_depth (run exampleDefs (init_serialize exampleDefs)
      (List.replicate 10001 (.ret (frameOf "a.py" "f") none))) = get_depth deepState ∧
    in_no_trace_context deepState = false ∧
    cstr exampleDefs.DONT_TRACE_NAME <+: (frameOf "a.py" "_dont_trace_me").f_code.co_name ∧
    (handle_call exampleDefs deepState (frameOf "a.py" "_dont_trace_me")).no_trace_context_key
      = 0 ∧
    ¬ in_no_trace_context
      (handle_call exampleDefs deepState (frameOf "a.py" "_dont_trace_me")) = true ∧
    in_no_trace_context highState = false ∧
    get_depth (handle_call exampleDefs highState (frameOf "a.py" "_dont_trace_me"))
      = get_depth highState + 1 ∧
    ¬ toLong ((handle_call exampleDefs highState
          (frameOf "a.py" "_dont_trace_me")).no_trace_context_key - DEPTH_MAGIC)
        = get_depth highState + 1 := by
  refine ⟨?_, by decide, by decide, by decide, by decide, by decide, by decide, by decide⟩
  rw [(run_returns exampleDefs (frameOf "a.py" "f") 10001 (init_serialize exampleDefs)
    (by decide)).2]
  decide

/-- C9, amended. From a state with suppression inactive at depth `d`, after
`handle_call` on a frame whose function name starts with `DONT_TRACE_NAME`,
`in_no_trace_context` reports that suppression is active exactly when `d` is
not `-(DEPTH_MAGIC + 1)`, that is -10001; and when `d + 1 + DEPTH_MAGIC` is
within `int`, that is for `d` up to 2147473646, the depth at entry is
`d + 1` and the stored threshold decodes to it. -/
theorem sentinel_distinguishes (d : Defs) (s : State) (f : PyFrameObject)
    (hin : in_no_trace_context s = false)
    (hname : cstr d.DONT_TRACE_NAME <+: f.f_code.co_name) :
    (in_no_trace_context (handle_call d s f) = true ↔ get_depth s ≠ -(DEPTH_MAGIC + 1)) ∧
    (get_depth s ≠ -10001 → in_no_trace_context (handle_call d s f) = true) ∧
    (get_depth s + 1 + DEPTH_MAGIC ≤ INT_MAX →
      get_depth (handle_call d s f) = get_depth s + 1 ∧
      (handle_call d s f).no_trace_context_key - DEPTH_MAGIC = get_depth s + 1 ∧
      toLong ((handle_call d s f).no_trace_context_key - DEPTH_MAGIC) = get_depth s + 1) := by
  have e1 : INT_MIN = -2147483648 := rfl
  have e2 : INT_MAX = 2147483647 := rfl
  have e3 : DEPTH_MAGIC = 10000 := rfl
  have hr := get_depth_range s
  have hf : should_trace_frame d f = false :=
    (should_trace_frame_eq_false_iff d f).2 hname
  have hkey : (handle_call d s f).no_trace_context_key
      = toInt (toInt (get_depth s + 1) + DEPTH_MAGIC) := by
    rw [handle_call_of_trigger d s f hin hf]
    show toInt (get_depth (increment_depth s) + DEPTH_MAGIC) = _
    rw [get_depth_increment_depth]
  have hiff : in_no_trace_context (handle_call d s f) = true
      ↔ get_depth s ≠ -(DEPTH_MAGIC + 1) := by
    simp only [in_no_trace_context, hkey, bne_iff_ne, ne_eq, toInt]
    constructor <;> intro h <;> omega
  refine ⟨hiff, fun h => hiff.2 (by omega), fun h => ?_⟩
  have h1 : toInt (get_depth s + 1) = get_depth s + 1 :=
    toInt_of_range _ (by omega) (by omega)
  have h2 : (handle_call d s f).no_trace_context_key = get_depth s + 1 + DEPTH_MAGIC := by
    rw [hkey, h1, toInt_of_range _ (by omega) (by omega)]
  refine ⟨by rw [get_depth_handle_call, h1], by rw [h2]; omega, ?_⟩
  rw [h2, toLong_of_int_range _ (by omega) (by omega)]
  omega

/-- C9 amended, at the initial state (depth 0): suppression is reported
active and the threshold decodes to 1. -/
theorem sentinel_distinguishes_witness :
    in_no_trace_context (handle_call exampleDefs (init_serialize exampleDefs)
      (frameOf "a.py" "_dont_trace_me")) = true ∧
    (handle_call exampleDefs (init_serialize exampleDefs)
      (frameOf "a.py" "_dont_trace_me")).no_trace_context_key - DEPTH_MAGIC = 1 :=
  have h := sentinel_distinguishes exampleDefs (init_serialize exampleDefs)
    (frameOf "a.py" "_dont_trace_me") (by decide) (by decide)
  ⟨h.2.1 (by decide), ((h.2.2 (by decide)).2.1)⟩

/-! ## C10: the argument slots of a call record -/

/-- C10, the code at a call of `h(a, b)` where `a` has no value and `b` has
one, after a recorded return: the loop writes `b` into slot 1 and counts one
argument, so the record has `n_arguments = 1` and encodes slot 0, which
still holds the `"return value"` argument of the earlier return (its value
field pointing into the repr string that return released); `b` is not
encoded.  The same with `a` absent from the `f_locals` dictionary and with
`a` unbound among the fast locals. -/
theorem call_record_encodes_stale_slot :
    arg_value frameExec 0 = none ∧ arg_value frameExec 1 = some (intObj "2") ∧
    (handle_call exampleDefs afterReturn frameExec).ring.getLast?
      = some { type := RECORD__RECORD_TYPE__CALL
               n_arguments := 1
               depth := 0
               module := "a.py".toList
               function := "h".toList
               lineno := 3
               arguments := [{ name := "return value".toList
                               type := "NoneType".toList
                               value := .released "None".toList }] } ∧
    (handle_call exampleDefs afterReturn frameExec).arguments.take 2
      = [{ name := set_string exampleDefs "return value".toList
           type := set_string exampleDefs "NoneType".toList
           value := .released "None".toList },
         { name := set_string exampleDefs "b".toList
           type := set_string exampleDefs "int".toList
           value := .live (set_string exampleDefs "2".toList) }] ∧
    (handle_call exampleDefs afterReturn frameUnbound).ring
      = (handle_call exampleDefs afterReturn frameExec).ring := by
  decide

/-! ### A recorded call whose parameters all have a value -/

theorem take_set_self (l : List Argument) (n : Nat) (a : Argument) (h : n < l.length) :
    (l.set n a).take (n + 1) = l.take n ++ [a] := by
  rw [List.set_eq_take_append_cons_drop, if_pos h]
  have hl : (List.take n l).length = n := by rw [List.length_take]; omega
  rw [List.take_append_eq_append_take, hl]
  simp [List.take_of_length_le, hl]

theorem handle_call_loop_all_valued (d : Defs) (f : PyFrameObject) (n : Nat) :
    ∀ args : List Argument, n ≤ args.length →
      (∀ i, i < n → arg_value f i ≠ none) →
      (((List.range n).foldl (handle_call_body d f) (args, 0)).1.take n
          = (List.range n).filterMap (fun i => (arg_value f i).map (call_argument d f i))) ∧
      ((List.range n).foldl (handle_call_body d f) (args, 0)).1.length = args.length := by
  induction n with
  | zero => intro args _ _; simp
  | succ n ih =>
    intro args hlen hall
    obtain ⟨h1, h2⟩ := ih args (by omega) (fun i hi => hall i (by omega))
    rw [List.range_succ, List.foldl_append, List.foldl_cons, List.foldl_nil]
    cases hv : arg_value f n with
    | none => exact absurd hv (hall n (by omega))
    | some v =>
      simp only [handle_call_body, hv]
      rw [List.length_set, take_set_self _ _ _ (by omega), h1, List.filterMap_append]
      simp [hv, h2]

/-- When every parameter among the first `min(k, MAX_ARGS)` has a value, a
recorded call encodes exactly these parameters, in declaration order, each
with its own name, type name and repr. -/
theorem call_record_of_all_valued (d : Defs) (s : State) (f : PyFrameObject)
    (hin : in_no_trace_context s = false) (hf : should_trace_frame d f = true)
    (hlen : min (argcount f) d.MAX_ARGS ≤ s.arguments.length)
    (hall : ∀ i, i < min (argcount f) d.MAX_ARGS → arg_value f i ≠ none) :
    ∃ r, (handle_call d s f).ring = s.ring ++ [r] ∧
      r.n_arguments = min (argcount f) d.MAX_ARGS ∧
      r.arguments = (List.range (min (argcount f) d.MAX_ARGS)).filterMap (fun i =>
        (arg_value f i).map (fun v =>
          { name := (call_argument d f i v).name.bytes
            type := (call_argument d f i v).type.bytes
            value := (call_argument d f i v).value.pack })) := by
  have hc : (handle_call_loop d f (increment_depth s).arguments).2
      = min (argcount f) d.MAX_ARGS := by
    rw [handle_call_loop_count, List.filter_eq_self.2, List.length_range]
    intro i hi
    cases h : arg_value f i with
    | none => exact absurd h (hall i (List.mem_range.1 hi))
    | some v => rfl
  obtain ⟨ht, -⟩ := handle_call_loop_all_valued d f (min (argcount f) d.MAX_ARGS)
    (increment_depth s).arguments hlen hall
  rw [handle_call_of_traced d s f hin hf]
  refine ⟨_, rfl, hc, ?_⟩
  simp only [record__pack, hc]
  unfold handle_call_loop
  rw [ht, List.map_filterMap]
  congr 1
  funext i
  cases arg_value f i <;> rfl

/-! ## C11: the count of pending converted strings -/

/-- C11, the code at calls of a do-not-trace function in a row with
`MAX_ARGS = 4`.  One such call converts the function's name and returns
without `CLEAR_REFS`, so `refs_count` is 1 after it; the matching return
leaves it at 1; eleven such calls with their returns leave it at 11 with
suppression inactive; and in the twelfth call `PYSTR_TO_CHAR` raises
`refs_count` to 12, which is `MAX_ARGS * 3`, and its `ASSERT` fails. -/
theorem refs_count_grows_with_triggers :
    4 ≤ exampleDefs.MAX_ARGS ∧
    (Py3.handle_call exampleDefs (Py3.init_serialize exampleDefs)
      (frameOf "a.py" "_dont_trace_me")).map State3.refs_count = some 1 ∧
    (Py3.run exampleDefs (Py3.init_serialize exampleDefs) (triggerWindows 1)).map
      State3.refs_count = some 1 ∧
    (Py3.run exampleDefs (Py3.init_serialize exampleDefs) (triggerWindows 11)).map
      (fun s => (s.refs_count, in_no_trace_context s.st, s.st.ring)) = some (11, false, []) ∧
    Py3.run exampleDefs (Py3.init_serialize exampleDefs) (triggerWindows 12) = none := by
  decide

/-! ## C12: the depth in a call record and in its return record -/

/-- C12 as stated fails at depth 2147483647, the largest `int`: suppression is
inactive, the call is recorded, and its record carries depth -2147483648,
not one more than the depth before; the record of the matching return
carries 2147483647. -/
theorem call_record_depth_wraps_at_int_max :
    in_no_trace_context maxState = false ∧ get_depth maxState = 2147483647 ∧
    should_trace_frame exampleDefs (frameOf "a.py" "f") = true ∧
    (handle_call exampleDefs maxState (frameOf "a.py" "f")).ring.map PackedRecord.depth
      = [-2147483648] ∧
    (handle_return exampleDefs (handle_call exampleDefs maxState (frameOf "a.py" "f"))
      (frameOf "a.py" "f") none).ring.map PackedRecord.depth = [-2147483648, 2147483647] := by
  decide

/-- C12, amended. From a state with depth `D` and suppression inactive, a
recorded call writes one record of kind Call, and after a well-nested
sequence of events that leaves suppression inactive the matching return
writes one record of kind Return that carries depth `D`.  The Call record
carries `D + 1` computed in `int`; when `D` is less than the largest `int`
that is `D + 1`, one more than the depth in the Return record. -/
theorem call_return_record_depth (d : Defs) (s : State) (f fr : PyFrameObject)
    (es : List Event) (v : Option PyObject)
    (hin : in_no_trace_context s = false) (hf : should_trace_frame d f = true)
    (hes : wellNested es = true)
    (hin2 : in_no_trace_context (run d (handle_call d s f) es) = false) :
    ∃ rc rr,
      (handle_call d s f).ring = s.ring ++ [rc] ∧
      rc.type = RECORD__RECORD_TYPE__CALL ∧
      rc.depth = toInt (get_depth s + 1) ∧
      (handle_return d (run d (handle_call d s f) es) fr v).ring
        = (run d (handle_call d s f) es).ring ++ [rr] ∧
      rr.type = RECORD__RECORD_TYPE__RETURN ∧
      rr.depth = get_depth s ∧
      (get_depth s < INT_MAX → rc.depth = get_depth s + 1 ∧ rc.depth = rr.depth + 1) := by
  have e1 : INT_MIN = -2147483648 := rfl
  have e2 : INT_MAX = 2147483647 := rfl
  have hrange := get_depth_range s
  have hd : get_depth (run d (handle_call d s f) es) = toInt (get_depth s + 1) := by
    rw [get_depth_run_wellNested d _ es hes, get_depth_handle_call]
  have hc := handle_call_of_traced d s f hin hf
  have hr := handle_return_of_traced d (run d (handle_call d s f) es) fr v hin2
  have hdr : get_depth (decrement_depth (run d (handle_call d s f) es)) = get_depth s := by
    rw [get_depth_decrement_depth, hd]
    simp only [toInt]
    omega
  obtain ⟨rc, c1, c2, c3⟩ : ∃ rc, (handle_call d s f).ring = s.ring ++ [rc] ∧
      rc.type = RECORD__RECORD_TYPE__CALL ∧ rc.depth = toInt (get_depth s + 1) := by
    rw [hc]; exact ⟨_, rfl, rfl, get_depth_increment_depth s⟩
  obtain ⟨rr, r1, r2, r3⟩ : ∃ rr,
      (handle_return d (run d (handle_call d s f) es) fr v).ring
        = (run d (handle_call d s f) es).ring ++ [rr] ∧
      rr.type = RECORD__RECORD_TYPE__RETURN ∧ rr.depth = get_depth s := by
    rw [hr]; exact ⟨_, rfl, rfl, hdr⟩
  refine ⟨rc, rr, c1, c2, c3, r1, r2, r3, fun h => ?_⟩
  have h1 : toInt (get_depth s + 1) = get_depth s + 1 :=
    toInt_of_range _ (by omega) (by omega)
  exact ⟨by rw [c3, h1], by rw [c3, r3, h1]⟩

/-- C12 amended, at a call of `f` from the initial state (depth 0) that holds
a recorded call and a suppression window: the Call record carries depth 1
and the Return record depth 0. -/
theorem call_return_record_depth_witness :
    ∃ rc rr,
      (handle_call exampleDefs (init_serialize exampleDefs) (frameOf "a.py" "f")).ring
        = [rc] ∧
      rc.depth = 1 ∧
      (handle_return exampleDefs
        (run exampleDefs
          (handle_call exampleDefs (init_serialize exampleDefs) (frameOf "a.py" "f"))
          betweenEvents)
        (frameOf "a.py" "f") none).ring.getLast? = some rr ∧
      rr.depth = 0 := by
  obtain ⟨rc, rr, h1, -, -, h4, -, h6, h7⟩ := call_return_record_depth exampleDefs
    (init_serialize exampleDefs) (frameOf "a.py" "f") (frameOf "a.py" "f") betweenEvents none
    (by decide) (by decide) (by decide) (by decide)
  exact ⟨rc, rr, h1, (h7 (by decide)).1, by rw [h4]; simp, h6⟩

/-! ### The build with `IS_PY3K`: calls that trigger suppression -/

theorem window_state (st : State) (hin : in_no_trace_context st = false)
    (h1 : INT_MIN ≤ st.depth_key) (h2 : st.depth_key < INT_MAX) :
    exit_no_trace_context (decrement_depth (enter_no_trace_context (increment_depth st)))
      = st := by
  cases st with
  | mk dk nk args ring =>
    have hk : nk = 0 := by simpa [in_no_trace_context] using hin
    subst hk
    have hdk : toInt (toInt (toInt (toInt dk + 1)) - 1) = dk := by
      simp only [INT_MIN, INT_MAX] at h1 h2
      simp only [toInt]
      omega
    simp [exit_no_trace_context, decrement_depth, enter_no_trace_context, increment_depth,
      get_depth, hdk]

theorem Py3.trigger_call_refs (d : Defs) (s : State3) (f : PyFrameObject)
    (hin : in_no_trace_context s.st = false)
    (hf : Pytrace.should_trace_frame d f = false) :
    Py3.handle_call d s f =
      if s.refs_count + 1 < d.MAX_ARGS * 3
      then some { st := enter_no_trace_context (increment_depth s.st),
                  refs_count := s.refs_count + 1 }
      else none := by
  have h2 : in_no_trace_context (increment_depth s.st) = false := hin
  have hf2 : (!(0 == strncmp f.f_code.co_name d.DONT_TRACE_NAME
      (strlen d.DONT_TRACE_NAME))) = false := hf
  by_cases hr : s.refs_count + 1 < d.MAX_ARGS * 3
  · simp [Py3.handle_call, Py3.should_trace_frame, Py3.PYSTR_TO_CHAR, h2, hr, hf2]
  · simp [Py3.handle_call, Py3.should_trace_frame, Py3.PYSTR_TO_CHAR, h2, hr]

/-- One call of a do-not-trace function with its return, from a state with
suppression inactive whose depth slot holds an `int` that is at least 0 and
at most 2147473646: the state is as before but for `refs_count`, which is one
more; the call fails its `ASSERT` when that reaches `MAX_ARGS * 3`. -/
theorem Py3.run_trigger_window (d : Defs) (s : State3) (f : PyFrameObject)
    (es : List Event)
    (hin : in_no_trace_context s.st = false) (hD : 0 ≤ s.st.depth_key)
    (hmagic : s.st.depth_key + 1 + DEPTH_MAGIC ≤ INT_MAX)
    (hname : cstr d.DONT_TRACE_NAME <+: f.f_code.co_name) :
    Py3.run d s (.call f :: .ret f none :: es) =
      if s.refs_count + 1 < d.MAX_ARGS * 3
      then Py3.run d { s with refs_count := s.refs_count + 1 } es
      else none := by
  have e1 : INT_MIN = -2147483648 := rfl
  have e2 : INT_MAX = 2147483647 := rfl
  have e3 : DEPTH_MAGIC = 10000 := rfl
  have hf : Pytrace.should_trace_frame d f = false :=
    (should_trace_frame_eq_false_iff d f).2 hname
  have hg : get_depth s.st = s.st.depth_key := toInt_of_range _ (by omega) (by omega)
  by_cases hr : s.refs_count + 1 < d.MAX_ARGS * 3
  · have hinc : get_depth (increment_depth s.st) = s.st.depth_key + 1 := by
      rw [get_depth_increment_depth, hg, toInt_of_range _ (by omega) (by omega)]
    have hkey : (decrement_depth (enter_no_trace_context
        (increment_depth s.st))).no_trace_context_key
        = s.st.depth_key + 1 + DEPTH_MAGIC := by
      show toInt (get_depth (increment_depth s.st) + DEPTH_MAGIC) = _
      rw [hinc, toInt_of_range _ (by omega) (by omega)]
    have hdec : get_depth (decrement_depth (enter_no_trace_context (increment_depth s.st)))
        = s.st.depth_key := by
      rw [get_depth_decrement_depth]
      show toInt (get_depth (increment_depth s.st) - 1) = _
      rw [hinc, toInt_of_range _ (by omega) (by omega)]
      omega
    have hsup : in_no_trace_context
        (decrement_depth (enter_no_trace_context (increment_depth s.st))) = true := by
      simp only [in_no_trace_context, hkey, bne_iff_ne, ne_eq]
      omega
    have hexit : should_exit_no_trace_context
        (decrement_depth (enter_no_trace_context (increment_depth s.st))) = true := by
      simp only [should_exit_no_trace_context, hkey, hdec, decide_eq_true_eq]
      rw [toLong_of_int_range _ (by omega) (by omega)]
      omega
    simp only [Py3.run, Py3.dispatch, Py3.trigger_call_refs d s f hin hf, hr, if_true,
      Py3.handle_return, hsup, hexit, window_state s.st hin (by omega) (by omega)]
  · simp only [Py3.run, Py3.dispatch, Py3.trigger_call_refs d s f hin hf, hr, if_false]

/-- From a state with suppression inactive whose depth slot holds an `int`
that is at least 0 and at most 2147473646, `k` calls of a do-not-trace
function in a row, each with its return, raise `refs_count` by `k`, and an
`ASSERT` fails on the way once that reaches `MAX_ARGS * 3`. -/
theorem Py3.run_callWindows (d : Defs) (f : PyFrameObject)
    (hname : cstr d.DONT_TRACE_NAME <+: f.f_code.co_name) (k : Nat) :
    ∀ s : State3, in_no_trace_context s.st = false → 0 ≤ s.st.depth_key →
      s.st.depth_key + 1 + DEPTH_MAGIC ≤ INT_MAX →
      Py3.run d s (callWindows f k) =
        if k = 0 ∨ s.refs_count + k < d.MAX_ARGS * 3
        then some { s with refs_count := s.refs_count + k }
        else none := by
  induction k with
  | zero => intro s _ _ _; simp [callWindows, Py3.run]
  | succ k ih =>
    intro s hin hD hmagic
    rw [callWindows, Py3.run_trigger_window d s f _ hin hD hmagic hname]
    by_cases hr : s.refs_count + 1 < d.MAX_ARGS * 3
    · rw [if_pos hr, ih { s with refs_count := s.refs_count + 1 } hin hD hmagic]
      by_cases hk : k = 0
      · subst hk; simp [hr]
      · by_cases h2 : s.refs_count + (k + 1) < d.MAX_ARGS * 3
        · have h3 : s.refs_count + 1 + k < d.MAX_ARGS * 3 := by omega
          simp [h2, h3, Nat.add_assoc, Nat.add_comm 1 k]
        · have h3 : ¬ (s.refs_count + 1 + k < d.MAX_ARGS * 3) := by omega
          simp [h2, h3, hk]
    · have h2 : ¬ (s.refs_count + (k + 1) < d.MAX_ARGS * 3) := by omega
      simp [hr, h2]

/-- Whatever the constants, `MAX_ARGS * 3` calls of a do-not-trace function in
a row from the initial state run into a failed `ASSERT`. -/
theorem Py3.run_callWindows_fails (d : Defs) (f : PyFrameObject) (hM : 0 < d.MAX_ARGS)
    (hname : cstr d.DONT_TRACE_NAME <+: f.f_code.co_name) :
    Py3.run d (Py3.init_serialize d) (callWindows f (d.MAX_ARGS * 3)) = none := by
  have hm : (Py3.init_serialize d).st.depth_key + 1 + DEPTH_MAGIC ≤ INT_MAX := by
    show (0 : Int) + 1 + 10000 ≤ 2147483647
    omega
  rw [Py3.run_callWindows d f hname (d.MAX_ARGS * 3) (Py3.init_serialize d) rfl (le_refl _) hm]
  have h1 : ¬ (d.MAX_ARGS * 3 = 0) := by omega
  have h2 : ¬ ((Py3.init_serialize d).refs_count + d.MAX_ARGS * 3 < d.MAX_ARGS * 3) := by omega
  simp [h1, h2]

/-! ### The build with `IS_PY3K`: events that reach `CLEAR_REFS` -/

theorem Py3.PYSTR_TO_CHAR_of_lt (d : Defs) (s : State3) (obj : CStr)
    (h : s.refs_count + 1 < d.MAX_ARGS * 3) :
    Py3.PYSTR_TO_CHAR d s obj = some (obj, { s with refs_count := s.refs_count + 1 }) := by
  simp [Py3.PYSTR_TO_CHAR, h]

theorem Py3.pyobj_to_cstr_of_lt (d : Defs) (s : State3) (obj : PyObject)
    (h : s.refs_count + 1 < d.MAX_ARGS * 3) :
    ∃ r s2, Py3.pyobj_to_cstr d s obj = some (r, s2) ∧
      s2.refs_count ≤ s.refs_count + 1 ∧ s2.st = s.st := by
  unfold Py3.pyobj_to_cstr
  cases PyObject_Repr obj with
  | none => exact ⟨_, _, rfl, by omega, rfl⟩
  | some string =>
    simp only [Py3.PYSTR_TO_CHAR_of_lt d s string.ob_sval h]
    split
    · exact ⟨_, _, rfl, le_refl _, rfl⟩
    · exact ⟨_, _, rfl, le_refl _, rfl⟩

theorem Py3.handle_trace_of_lt (d : Defs) (s : State3) (f : PyFrameObject)
    (t : Record__RecordType) (n : Nat) (h : s.refs_count + 2 < d.MAX_ARGS * 3) :
    ∃ s2, Py3.handle_trace d s f t n = some s2 ∧ s2.refs_count = 0 := by
  unfold Py3.handle_trace
  rw [Py3.PYSTR_TO_CHAR_of_lt d s _ (by omega)]
  simp only []
  rw [Py3.PYSTR_TO_CHAR_of_lt d _ _ (by simpa using h)]
  exact ⟨_, rfl, rfl⟩

theorem Py3.handle_call_body_of_lt (d : Defs) (f : PyFrameObject) (st : State3 × Nat)
    (i : Nat) (h : st.1.refs_count + 2 < d.MAX_ARGS * 3) :
    ∃ st2, Py3.handle_call_body d f st i = some st2 ∧
      st2.1.refs_count ≤ st.1.refs_count + 2 := by
  unfold Py3.handle_call_body
  cases arg_value f i with
  | none => exact ⟨st, rfl, by omega⟩
  | some value =>
    simp only [Py3.PYSTR_TO_CHAR_of_lt d st.1 _ (by omega)]
    obtain ⟨r, s2, h1, h2, -⟩ := Py3.pyobj_to_cstr_of_lt d
      { st.1 with refs_count := st.1.refs_count + 1 } value (by simpa using h)
    rw [h1]
    exact ⟨_, rfl, by simpa using h2⟩

theorem Py3.handle_call_loop_of_lt (d : Defs) (f : PyFrameObject) (l : List Nat) :
    ∀ st : State3 × Nat, st.1.refs_count + 2 * l.length < d.MAX_ARGS * 3 →
      ∃ st2, Py3.handle_call_loop d f l st = some st2 ∧
        st2.1.refs_count ≤ st.1.refs_count + 2 * l.length := by
  induction l with
  | nil => intro st _; exact ⟨st, rfl, by omega⟩
  | cons i l ih =>
    intro st h
    rw [List.length_cons] at h
    obtain ⟨st1, h1, h2⟩ := Py3.handle_call_body_of_lt d f st i (by omega)
    obtain ⟨st2, h3, h4⟩ := ih st1 (by omega)
    refine ⟨st2, ?_, ?_⟩
    · simp only [Py3.handle_call_loop, h1, h3]
    · rw [List.length_cons]; omega

/-- With `MAX_ARGS` at least 4 and no converted string pending, every event
but a call that triggers suppression runs without a failed `ASSERT` and
leaves no converted string pending. -/
theorem Py3.dispatch_of_refs_count_zero (d : Defs) (s : State3) (e : Event)
    (hM : 4 ≤ d.MAX_ARGS) (h0 : s.refs_count = 0)
    (he : in_no_trace_context s.st = true ∨
      ∀ f, e = .call f → Pytrace.should_trace_frame d f = true) :
    ∃ s2, Py3.dispatch d s e = some s2 ∧ s2.refs_count = 0 := by
  cases e with
  | other f => exact ⟨s, rfl, h0⟩
  | exception f x =>
    obtain ⟨r, s1, h1, h2, -⟩ := Py3.pyobj_to_cstr_of_lt d s x.item1 (by omega)
    simp only [Py3.dispatch, Py3.handle_exception, h1]
    exact Py3.handle_trace_of_lt d _ f _ 1 (by simp only []; omega)
  | ret f v =>
    simp only [Py3.dispatch, Py3.handle_return]
    split
    · split
      · exact ⟨_, rfl, h0⟩
      · exact ⟨_, rfl, h0⟩
    · cases v with
      | none =>
        obtain ⟨r, s1, h1, h2, -⟩ := Py3.pyobj_to_cstr_of_lt d
          { s with st := decrement_depth s.st } Py_None (by simp only []; omega)
        simp only [h1]
        exact Py3.handle_trace_of_lt d _ f _ 1 (by simp only [] at h2 ⊢; omega)
      | some v =>
        obtain ⟨r, s1, h1, h2, -⟩ := Py3.pyobj_to_cstr_of_lt d
          { s with st := decrement_depth s.st } v (by simp only []; omega)
        simp only [h1]
        exact Py3.handle_trace_of_lt d _ f _ 1 (by simp only [] at h2 ⊢; omega)
  | call f =>
    simp only [Py3.dispatch, Py3.handle_call]
    split
    · exact ⟨_, rfl, h0⟩
    · rename_i hsup
      have hsup2 : in_no_trace_context s.st = false := by
        simpa [increment_depth, in_no_trace_context] using hsup
      have hf : Pytrace.should_trace_frame d f = true := by
        cases he with
        | inl h => rw [hsup2] at h; exact absurd h (by simp)
        | inr h => exact h f rfl
      have hf2 : (!(0 == strncmp f.f_code.co_name d.DONT_TRACE_NAME
          (strlen d.DONT_TRACE_NAME))) = true := hf
      simp only [Py3.should_trace_frame,
        Py3.PYSTR_TO_CHAR_of_lt d { s with st := increment_depth s.st } _
          (by simp only []; omega), hf2]
      obtain ⟨st2, h1, h2⟩ := Py3.handle_call_loop_of_lt d f
        (List.range (min (argcount f) d.MAX_ARGS))
        ({ st := increment_depth s.st, refs_count := s.refs_count + 1 }, 0)
        (by
          rw [List.length_range]
          have := Nat.min_le_right (argcount f) d.MAX_ARGS
          simp only []
          omega)
      rw [List.length_range] at h2
      have hb := Nat.min_le_right (argcount f) d.MAX_ARGS
      have h3 : st2.1.refs_count + 2 < d.MAX_ARGS * 3 := by
        have h4 : st2.1.refs_count ≤ s.refs_count + 1 + 2 * min (argcount f) d.MAX_ARGS := h2
        omega
      have hb2 : ((true == false) = true) = False := by simp
      simp only [hb2, if_false, h1]
      exact Py3.handle_trace_of_lt d _ f _ _ h3

end Pytrace
